import Mathlib

/-!
Verification development for the SITES Spectral synchronization scripts.

The Python sources are embedded shallowly:

* a Python/JSON scalar value is `Value` (strings, integers, and `None`);
* a Python dict (and a relational row, which the D1 client returns as a
  dict) is an association list `Row` with first-key-wins lookup and the
  dict assignment discipline of Python (replace in place, append new keys
  at the end);
* the D1 store is `DB`, one list of rows per table, plus the next
  auto-increment row id;
* `datetime.utcnow().isoformat()` is an explicit `now : String` input;
* file and network I/O, prints and CLI parsing are outside the model: an
  operation takes its inputs as arguments and returns its observable
  outputs (result value, new store, executed or reported statements,
  accumulated error strings) in a structure; a raised exception is an
  `Except.error` carrying the message.
-/

inductive Value where
  | null
  | str (s : String)
  | int (n : Int)
deriving DecidableEq, Repr

/-- Python truthiness of a scalar value: `None`, the empty string and `0`
are falsy, everything else is truthy. -/
def isTruthy : Value → Bool
  | .null => false
  | .str s => !(s == "")
  | .int n => !(n == 0)

/-- Rendering of a value inside a Python f-string. -/
def pyStr : Value → String
  | .null => "None"
  | .str s => s
  | .int n => toString n

/-- A Python dict / relational row: ordered key-value pairs. -/
abbrev Row := List (String × Value)

/-- First binding of a key, like a Python dict lookup (`d[k]` when the key
is present, `None`-reporting `d.get(k)` otherwise). -/
def rlookup : Row → String → Option Value
  | [], _ => none
  | (k, v) :: rest, key => if k = key then some v else rlookup rest key

/-- Python `d.get(k)`: the bound value, or `None` when the key is absent. -/
def rget (r : Row) (k : String) : Value :=
  (rlookup r k).getD .null

/-- Python `k in d`. -/
def hasKey (r : Row) (k : String) : Bool :=
  (rlookup r k).isSome

/-- Python dict assignment `d[k] = v`: replace in place when the key is
present, append at the end otherwise. -/
def rset : Row → String → Value → Row
  | [], k, v => [(k, v)]
  | (k0, v0) :: rest, k, v =>
      if k0 = k then (k, v) :: rest else (k0, v0) :: rset rest k v

/-- Apply a dict of updates to a row, one assignment per pair, in order.
This is the effect of an SQL `UPDATE ... SET` built from the dict. -/
def rapply (r : Row) (data : Row) : Row :=
  data.foldl (fun acc kv => rset acc kv.1 kv.2) r

/-- SQL equality used in `WHERE col = ?`: `NULL` compares equal to
nothing, otherwise plain value equality. -/
def sqlEq (a b : Value) : Bool :=
  match a, b with
  | .null, _ => false
  | _, .null => false
  | a, b => decide (a = b)

/-- The D1 store: one table per entity kind, rows as dicts, plus the next
auto-increment id handed out by `INSERT`. -/
structure DB where
  stations : List Row
  platforms : List Row
  instruments : List Row
  rois : List Row
  nextId : Int
deriving DecidableEq, Repr

/-- CloudflareD1Client.query_one: first row satisfying the predicate of
the prepared statement, or none (src/scripts/python/d1_client.py:123). -/
def query_one (rows : List Row) (p : Row → Bool) : Option Row :=
  (rows.filter p).head?

/-- Predicate of `WHERE <key> = ?` with a bound parameter. -/
def byKey (k : String) (param : Value) (r : Row) : Bool :=
  sqlEq (rget r k) param

/-- CloudflareD1Client.update with predicate `id = ?`: every row whose id
column equals the parameter receives the SET assignments
(src/scripts/python/d1_client.py:153). -/
def rowsUpdate (rows : List Row) (idv : Value) (data : Row) : List Row :=
  rows.map (fun r => if sqlEq (rget r "id") idv then rapply r data else r)

/-- CloudflareD1Client.insert: append the row with the next auto id in its
id column and return that id (src/scripts/python/d1_client.py:136). -/
def rowsInsert (rows : List Row) (nextId : Int) (data : Row) : List Row :=
  rows ++ [rset data "id" (.int nextId)]

/-- Comparator behind SQL `ORDER BY <col>`: NULL sorts first, numbers
before text, text by string order, as in SQLite. -/
def valueLe : Value → Value → Bool
  | .null, _ => true
  | _, .null => false
  | .int m, .int n => decide (m ≤ n)
  | .int _, .str _ => true
  | .str _, .int _ => false
  | .str s, .str t => decide (s ≤ t)

/-- Row comparison under SQL `ORDER BY <key>`. -/
def rowLe (k : String) (a b : Row) : Prop :=
  valueLe (rget a k) (rget b k) = true

instance (k : String) : DecidableRel (rowLe k) := fun a b =>
  instDecidableEqBool (valueLe (rget a k) (rget b k)) true

/-- SQL `ORDER BY <key>` over a result set, as a stable sort. The sort
algorithm is insertion sort so that the model evaluates by reduction;
any stable sort produces the same list. -/
def sortRows (k : String) (rows : List Row) : List Row :=
  List.insertionSort (rowLe k) rows

/-- Nested document node for one instrument: its row fields plus the
attached ROI list (sync_data.py line 61 `instrument['rois'] = rois`). -/
structure InstDoc where
  fields : Row
  rois : List Row
deriving DecidableEq, Repr

/-- Nested document node for one platform with its instruments
(sync_data.py line 63). -/
structure PlatDoc where
  fields : Row
  instruments : List InstDoc
deriving DecidableEq, Repr

/-- The station document: station row fields, nested platforms, and the
`_sync_meta` dict (sync_data.py lines 65-69). Local files pushed back
have the same shape. -/
structure StationDoc where
  fields : Row
  platforms : List PlatDoc
  meta : Row
deriving DecidableEq, Repr

/-- pull_station (src/scripts/python/sync_data.py:23-80): look the station
up by acronym, fetch platforms, instruments and ROIs each ordered by
their name column, nest them, and stamp `_sync_meta` with the pull time.
File writing and prints are outside the model; the document written to
disk is the returned value. -/
def pull_station (db : DB) (acronym : String) (now : String) :
    Except String StationDoc :=
  match query_one db.stations (byKey "acronym" (.str acronym)) with
  | none => .error ("Station " ++ acronym ++ " not found")
  | some station =>
      let sid := rget station "id"
      let plats := sortRows "normalized_name"
        (db.platforms.filter (byKey "station_id" sid))
      .ok
        { fields := station
          platforms := plats.map (fun p =>
            let insts := sortRows "normalized_name"
              (db.instruments.filter (byKey "platform_id" (rget p "id")))
            { fields := p
              instruments := insts.map (fun i =>
                { fields := i
                  rois := sortRows "roi_name"
                    (db.rois.filter (byKey "instrument_id" (rget i "id"))) }) })
          meta := [("pulled_at", .str now), ("source", .str "cloudflare_d1")] }

/-- Station fields push compares and updates (sync_data.py line 110). -/
def stationFields : List String :=
  ["display_name", "description", "latitude", "longitude"]

/-- Platform fields push compares and updates (sync_data.py line 134). -/
def platformFields : List String :=
  ["display_name", "description", "latitude", "longitude", "status"]

/-- Instrument fields push compares and updates (sync_data.py line 155). -/
def instrumentFields : List String :=
  ["display_name", "description", "status", "serial_number"]

/-- The update dict push builds for one entity: for each allow-listed
field present in the local dict whose value differs from the live row
(`field in local and local[field] != existing.get(field)`), one
assignment, in allow-list order (sync_data.py lines 111-114, 133-136,
154-157). -/
def buildUpdates (allow : List String) (localr existing : Row) : Row :=
  allow.filterMap (fun f =>
    match rlookup localr f with
    | some v => if v ≠ rget existing f then some (f, v) else none
    | none => none)

/-- One mutating statement push either applies (real run) or reports
(dry run): a single UPDATE of one table at one id with one SET dict. -/
structure Mutation where
  table : String
  idv : Value
  data : Row
deriving DecidableEq, Repr

/-- Running state of the push loops: current store, count of applied
updates, and the statements applied (or, under dry run, reported). -/
structure LoopSt where
  db : DB
  updated : Nat
  muts : List Mutation
deriving DecidableEq, Repr

/-- Instrument loop of push_station (sync_data.py lines 147-165): match
each local instrument by normalized_name alone, build the update dict,
and apply it (or report it under dry run). A missing `normalized_name`
key in a local instrument raises a KeyError that aborts the push. -/
def pushInstLoop (dryRun : Bool) (now : String) :
    List Row → LoopSt → LoopSt × Option String
  | [], st => (st, none)
  | li :: rest, st =>
      match rlookup li "normalized_name" with
      | none => (st, some "KeyError: 'normalized_name'")
      | some nm =>
          match query_one st.db.instruments (byKey "normalized_name" nm) with
          | none => pushInstLoop dryRun now rest st
          | some existing =>
              let upd := buildUpdates instrumentFields li existing
              if upd = [] then pushInstLoop dryRun now rest st
              else
                let data := upd ++ [("updated_at", .str now)]
                let stmt : Mutation := ⟨"instruments", rget existing "id", data⟩
                if dryRun then
                  pushInstLoop dryRun now rest { st with muts := st.muts ++ [stmt] }
                else
                  pushInstLoop dryRun now rest
                    { db := { st.db with
                        instruments := rowsUpdate st.db.instruments (rget existing "id") data }
                      updated := st.updated + 1
                      muts := st.muts ++ [stmt] }

/-- Platform loop of push_station (sync_data.py lines 125-165): match each
local platform by normalized_name alone; on a match, update the platform
when fields diverge and then process its instruments; on no match, skip
the platform and its instruments silently. -/
def pushPlatLoop (dryRun : Bool) (now : String) :
    List PlatDoc → LoopSt → LoopSt × Option String
  | [], st => (st, none)
  | lp :: rest, st =>
      match rlookup lp.fields "normalized_name" with
      | none => (st, some "KeyError: 'normalized_name'")
      | some nm =>
          match query_one st.db.platforms (byKey "normalized_name" nm) with
          | none => pushPlatLoop dryRun now rest st
          | some existing =>
              let upd := buildUpdates platformFields lp.fields existing
              let st1 :=
                if upd = [] then st
                else
                  let data := upd ++ [("updated_at", .str now)]
                  let stmt : Mutation := ⟨"platforms", rget existing "id", data⟩
                  if dryRun then { st with muts := st.muts ++ [stmt] }
                  else
                    { db := { st.db with
                        platforms := rowsUpdate st.db.platforms (rget existing "id") data }
                      updated := st.updated + 1
                      muts := st.muts ++ [stmt] }
              match pushInstLoop dryRun now (lp.instruments.map InstDoc.fields) st1 with
              | (st2, some e) => (st2, some e)
              | (st2, none) => pushPlatLoop dryRun now rest st2

/-- Summary dict push_station returns (sync_data.py line 107): counters
for updated, inserted and deleted entities; this code path only ever
increments `updated`. -/
structure Changes where
  updated : Nat
  inserted : Nat
  deleted : Nat
deriving DecidableEq, Repr

/-- Full observable outcome of one push_station call: the returned
summary or the raised exception, the store afterwards, and the update
statements applied (real run) or reported (dry run). -/
structure PushOut where
  res : Except String Changes
  db : DB
  muts : List Mutation
deriving Repr

/-- Station-field part of push_station (sync_data.py lines 109-122): the
state after the optional single station update. -/
def stationStep (db : DB) (station : Row) (localData : StationDoc)
    (dryRun : Bool) (now : String) : LoopSt :=
  let upd := buildUpdates stationFields localData.fields station
  if upd = [] then ⟨db, 0, []⟩
  else
    let data := upd ++ [("updated_at", .str now)]
    let stmt : Mutation := ⟨"stations", rget station "id", data⟩
    if dryRun then ⟨db, 0, [stmt]⟩
    else
      ⟨{ db with stations := rowsUpdate db.stations (rget station "id") data },
       1, [stmt]⟩

/-- push_station (src/scripts/python/sync_data.py:83-172): look the
station up by acronym (ValueError when absent), update the station
fields that diverge, then walk local platforms and their instruments,
matching each by normalized_name alone and applying one UPDATE per
diverging entity; with dry_run the same diffs are computed and reported
but nothing is executed. Unmatched entities are skipped without trace in
the returned summary. -/
def push_station (db : DB) (acronym : String) (localData : StationDoc)
    (dryRun : Bool) (now : String) : PushOut :=
  match query_one db.stations (byKey "acronym" (.str acronym)) with
  | none => ⟨.error ("Station " ++ acronym ++ " not found"), db, []⟩
  | some station =>
      match pushPlatLoop dryRun now localData.platforms
        (stationStep db station localData dryRun now) with
      | (st, some e) => ⟨.error e, st.db, st.muts⟩
      | (st, none) => ⟨.ok ⟨st.updated, 0, 0⟩, st.db, st.muts⟩

/-- One station-level difference entry of diff_station
(sync_data.py lines 204-208). -/
structure StationFieldDiff where
  field : String
  localVal : Value
  dbVal : Value
deriving DecidableEq, Repr

/-- One platform-level difference entry of diff_station
(sync_data.py lines 222-227). -/
structure PlatformFieldDiff where
  platform : Value
  field : String
  localVal : Value
  dbVal : Value
deriving DecidableEq, Repr

/-- The differences dict of diff_station (sync_data.py line 197); the
instruments list is allocated but never filled by the code. -/
structure Differences where
  station : List StationFieldDiff
  platforms : List PlatformFieldDiff
  instruments : List PlatformFieldDiff
deriving DecidableEq, Repr

/-- Station fields diff_station compares (sync_data.py line 200). -/
def diffStationFields : List String :=
  ["display_name", "description", "latitude", "longitude"]

/-- Platform fields diff_station compares (sync_data.py line 220). -/
def diffPlatformFields : List String :=
  ["display_name", "status", "latitude", "longitude"]

/-- Assignment into a Value-keyed Python dict, same discipline as `rset`. -/
def pdictSet : List (Value × PlatDoc) → Value → PlatDoc → List (Value × PlatDoc)
  | [], k, v => [(k, v)]
  | (k0, v0) :: rest, k, v =>
      if k0 = k then (k, v) :: rest else (k0, v0) :: pdictSet rest k v

/-- Accumulating pass of the dict comprehension below. -/
def localPlatMapGo : List PlatDoc → List (Value × PlatDoc) →
    Except String (List (Value × PlatDoc))
  | [], m => .ok m
  | p :: rest, m =>
      match rlookup p.fields "normalized_name" with
      | none => .error "KeyError: 'normalized_name'"
      | some nm => localPlatMapGo rest (pdictSet m nm p)

/-- The dict comprehension `{p['normalized_name']: p for p in platforms}`
(sync_data.py line 211): raises KeyError when a platform lacks the key,
later entries overwrite earlier ones. -/
def localPlatMap (ps : List PlatDoc) : Except String (List (Value × PlatDoc)) :=
  localPlatMapGo ps []

/-- Python dict lookup in the comprehension-built map: plain value
equality on keys (None equals None here, unlike SQL). -/
def mapGet (m : List (Value × PlatDoc)) (k : Value) : Option PlatDoc :=
  (m.find? (fun kv => kv.1 = k)).map (·.2)

/-- diff_station (src/scripts/python/sync_data.py:175-245): compare the
local document against the live rows field by field, station level then
platform level, with plain `!=` on `dict.get` values; matching is by
normalized_name, and database platforms are fetched scoped to the
station with no ORDER BY. -/
def diff_station (db : DB) (acronym : String) (localData : StationDoc) :
    Except String Differences :=
  match query_one db.stations (byKey "acronym" (.str acronym)) with
  | none => .error ("Station " ++ acronym ++ " not found")
  | some station =>
      let stationDiffs := diffStationFields.filterMap (fun f =>
        let lv := rget localData.fields f
        let dv := rget station f
        if lv ≠ dv then some (⟨f, lv, dv⟩ : StationFieldDiff) else none)
      match localPlatMap localData.platforms with
      | .error e => .error e
      | .ok m =>
          let dbPlats := db.platforms.filter (byKey "station_id" (rget station "id"))
          let platDiffs := dbPlats.flatMap (fun dbp =>
            match mapGet m (rget dbp "normalized_name") with
            | none => []
            | some lp => diffPlatformFields.filterMap (fun f =>
                let lv := rget lp.fields f
                let dv := rget dbp f
                if lv ≠ dv then
                  some (⟨rget dbp "normalized_name", f, lv, dv⟩ : PlatformFieldDiff)
                else none))
          .ok ⟨stationDiffs, platDiffs, []⟩

/-- Value-keyed Python dict assignment, same discipline as `rset`. -/
def vdictSet : List (Value × Value) → Value → Value → List (Value × Value)
  | [], k, v => [(k, v)]
  | (k0, v0) :: rest, k, v =>
      if k0 = k then (k, v) :: rest else (k0, v0) :: vdictSet rest k v

/-- Lookup in a Value-keyed Python dict: plain value equality on keys. -/
def vdictGet (m : List (Value × Value)) (k : Value) : Option Value :=
  (m.find? (fun kv => decide (kv.1 = k))).map (·.2)

/-- The comprehension `{p['normalized_name']: p['id'] for p in platforms}`
(bulk_import.py line 53). -/
def buildPlatformMap (plats : List Row) : List (Value × Value) :=
  plats.foldl (fun m p => vdictSet m (rget p "normalized_name") (rget p "id")) []

/-- Optional instrument columns copied when present and truthy
(bulk_import.py lines 89-95). -/
def instrumentOptionalFields : List String :=
  ["description", "serial_number", "manufacturer", "model",
   "latitude", "longitude", "installation_date"]

/-- Platform reference of a bulk-load row:
`row.get('platform_normalized_name') or row.get('platform')`
(bulk_import.py line 70). -/
def rowPlatName (row : Row) : Value :=
  if isTruthy (rget row "platform_normalized_name") then
    rget row "platform_normalized_name"
  else rget row "platform"

/-- Whether the platform reference of a row resolves to a truthy id in
the platform map (`platform_map.get(platform_name)` followed by
`if not platform_id`, bulk_import.py lines 71-73). -/
def platResolves (pm : List (Value × Value)) (row : Row) : Bool :=
  match vdictGet pm (rowPlatName row) with
  | some v => isTruthy v
  | none => false

/-- Per-row body of the instrument import loop (bulk_import.py lines
68-95): resolve the platform by natural key through the prebuilt map,
then build the insert dict; an unresolvable platform or a missing
required column is a per-row error (the try/except at lines 68 and 106
turns any exception into an error entry). -/
def buildInstrumentData (pm : List (Value × Value)) (now : String)
    (row : Row) : Except String Row :=
  let pname := rowPlatName row
  match vdictGet pm pname with
  | none => .error ("Platform '" ++ pyStr pname ++ "' not found")
  | some pid =>
      if !isTruthy pid then .error ("Platform '" ++ pyStr pname ++ "' not found")
      else
        match rlookup row "normalized_name" with
        | none => .error "'normalized_name'"
        | some nm =>
            match rlookup row "instrument_type" with
            | none => .error "'instrument_type'"
            | some ity =>
                let base : Row :=
                  [("platform_id", pid), ("normalized_name", nm),
                   ("display_name", (rlookup row "display_name").getD nm),
                   ("instrument_type", ity),
                   ("status", (rlookup row "status").getD (.str "Active")),
                   ("created_at", .str now), ("updated_at", .str now)]
                .ok (instrumentOptionalFields.foldl (fun d f =>
                  match rlookup row f with
                  | some v => if isTruthy v then rset d f v else d
                  | none => d) base)

/-- Observable outcome of one bulk import call: the Python return value
(the imported list) or the raised exception, the store afterwards, and
the accumulated per-row error strings (printed in the summary,
bulk_import.py lines 115-118). -/
structure ImportOut where
  res : Except String (List Row)
  db : DB
  errs : List String
deriving Repr

/-- Row loop of import_instruments (bulk_import.py lines 67-107):
1-based enumeration, per-row errors accumulate and the loop continues;
a real run inserts and records the new id in the returned dict. -/
def importInstLoop (pm : List (Value × Value)) (dryRun : Bool) (now : String) :
    List Row → Nat → DB → List Row → List String → DB × List Row × List String
  | [], _, db, imported, errs => (db, imported, errs)
  | row :: rest, i, db, imported, errs =>
      match buildInstrumentData pm now row with
      | .error e =>
          importInstLoop pm dryRun now rest (i + 1) db imported
            (errs ++ ["Row " ++ toString i ++ ": " ++ e])
      | .ok data =>
          if dryRun then
            importInstLoop pm dryRun now rest (i + 1) db (imported ++ [data]) errs
          else
            let newId := db.nextId
            let db2 := { db with
              instruments := rowsInsert db.instruments newId data
              nextId := db.nextId + 1 }
            importInstLoop pm dryRun now rest (i + 1) db2
              (imported ++ [rset data "id" (.int newId)]) errs

/-- import_instruments (src/scripts/python/bulk_import.py:23-120): look
the station up by acronym (ValueError when absent), build the
platform-name map scoped to the station, then process the rows; the
Python return value is the imported list only, the error list is printed
in the summary. -/
def import_instruments (db : DB) (stationAcronym : String) (rows : List Row)
    (dryRun : Bool) (now : String) : ImportOut :=
  match query_one db.stations (byKey "acronym" (.str stationAcronym)) with
  | none => ⟨.error ("Station " ++ stationAcronym ++ " not found"), db, []⟩
  | some station =>
      let plats := db.platforms.filter (byKey "station_id" (rget station "id"))
      let pm := buildPlatformMap plats
      match importInstLoop pm dryRun now rows 1 db [] [] with
      | (db2, imported, errs) => ⟨.ok imported, db2, errs⟩

/-- Python float() on a JSON-decoded value (bulk_import.py lines 172-175).
Numeric values pass through; integer-shaped strings convert; anything
else raises. Non-integer decimal literals are floating point and outside
this model. -/
def pyFloat : Value → Except String Value
  | .int n => .ok (.int n)
  | .str s =>
      match s.toInt? with
      | some n => .ok (.int n)
      | none => .error ("could not convert string to float: '" ++ s ++ "'")
  | .null => .error "float() argument must be a string or a real number, not 'NoneType'"

/-- Per-row body of the platform import loop (bulk_import.py lines
160-177). There is no try/except here: a missing required column or a
failing float() aborts the whole import. -/
def buildPlatformData (sid : Value) (now : String) (row : Row) :
    Except String Row :=
  match rlookup row "normalized_name" with
  | none => .error "'normalized_name'"
  | some nm => do
      let base : Row :=
        [("station_id", sid), ("normalized_name", nm),
         ("display_name", (rlookup row "display_name").getD nm),
         ("platform_type", (rlookup row "platform_type").getD (.str "fixed")),
         ("ecosystem_code", (rlookup row "ecosystem_code").getD (.str "FOR")),
         ("status", (rlookup row "status").getD (.str "Active")),
         ("created_at", .str now), ("updated_at", .str now)]
      let b1 ← match rlookup row "latitude" with
        | some v => (pyFloat v).map (fun fv => rset base "latitude" fv)
        | none => pure base
      let b2 ← match rlookup row "longitude" with
        | some v => (pyFloat v).map (fun fv => rset b1 "longitude" fv)
        | none => pure b1
      match rlookup row "description" with
      | some v => pure (rset b2 "description" v)
      | none => pure b2

/-- Row loop of import_platforms (bulk_import.py lines 159-186): no
per-row error handling; the first failing row aborts with the rows
inserted so far still in the store. -/
def importPlatLoop (sid : Value) (dryRun : Bool) (now : String) :
    List Row → DB → List Row → DB × List Row × Option String
  | [], db, imported => (db, imported, none)
  | row :: rest, db, imported =>
      match buildPlatformData sid now row with
      | .error e => (db, imported, some e)
      | .ok data =>
          if dryRun then importPlatLoop sid dryRun now rest db (imported ++ [data])
          else
            let newId := db.nextId
            let db2 := { db with
              platforms := rowsInsert db.platforms newId data
              nextId := db.nextId + 1 }
            importPlatLoop sid dryRun now rest db2 (imported ++ [rset data "id" (.int newId)])

/-- import_platforms (src/scripts/python/bulk_import.py:123-188): look
the station up by acronym (ValueError when absent), then insert one
platform per row under the station id; this loop has no error list. -/
def import_platforms (db : DB) (stationAcronym : String) (rows : List Row)
    (dryRun : Bool) (now : String) : ImportOut :=
  match query_one db.stations (byKey "acronym" (.str stationAcronym)) with
  | none => ⟨.error ("Station " ++ stationAcronym ++ " not found"), db, []⟩
  | some station =>
      match importPlatLoop (rget station "id") dryRun now rows db [] with
      | (db2, imported, none) => ⟨.ok imported, db2, []⟩
      | (db2, _, some e) => ⟨.error e, db2, []⟩

/-- One row of the flat SQL join feeding export_db_to_yaml.py (the
query in its module docstring projects exactly these columns). -/
structure JoinRow where
  acronym : Value
  station_display : Value
  platform : Value
  platform_display : Value
  location_code : Value
  mounting_structure : Value
  platform_height_m : Value
  plat_lat : Value
  plat_lon : Value
  instrument : Value
  instr_display : Value
  instrument_type : Value
  instrument_number : Value
  status : Value
  legacy_acronym : Value
  instrument_height_m : Value
  deployment_date : Value
  camera_brand : Value
  camera_model : Value
  camera_serial_number : Value
  sensor_brand : Value
  sensor_model : Value
  installation_notes : Value
deriving DecidableEq, Repr

/-- The per-instrument dict the exporter builds, with the optional
camera and sensor sub-objects (export_db_to_yaml.py lines 85-103). -/
structure InstrEntry where
  display_name : Value
  instrument_type : Value
  instrument_number : Value
  status : Value
  legacy_acronym : Value
  instrument_height_m : Value
  deployment_date : Value
  camera : Option Row
  sensor : Option Row
  installation_notes : Value
deriving DecidableEq, Repr

/-- Instrument entry construction (src/scripts/export_db_to_yaml.py:85-103):
the camera sub-object is built exactly when `row['camera_brand']` is
truthy, the sensor sub-object exactly when `row['sensor_brand']` is
truthy; otherwise the key is set to None and the YAML emitter at lines
144-157 skips it. -/
def buildInstrumentEntry (row : JoinRow) : InstrEntry :=
  { display_name := row.instr_display
    instrument_type := row.instrument_type
    instrument_number := row.instrument_number
    status := row.status
    legacy_acronym := row.legacy_acronym
    instrument_height_m := row.instrument_height_m
    deployment_date := row.deployment_date
    camera :=
      if isTruthy row.camera_brand then
        some [("brand", row.camera_brand), ("model", row.camera_model),
              ("serial_number", row.camera_serial_number)]
      else none
    sensor :=
      if isTruthy row.sensor_brand then
        some [("brand", row.sensor_brand), ("model", row.sensor_model)]
      else none
    installation_notes := row.installation_notes }

/-! Basic facts about rows, dict updates and queries. -/

theorem rget_rset_eq (r : Row) (k : String) (v : Value) :
    rget (rset r k v) k = v := by
  induction r with
  | nil => simp [rset, rget, rlookup]
  | cons kv rest ih =>
      by_cases h : kv.1 = k
      · simp [rset, h, rget, rlookup]
      · simpa [rset, h, rget, rlookup] using ih

theorem rget_rset_ne (r : Row) (k k2 : String) (v : Value) (h : k ≠ k2) :
    rget (rset r k v) k2 = rget r k2 := by
  induction r with
  | nil => simp [rset, rget, rlookup, h]
  | cons kv rest ih =>
      obtain ⟨k0, v0⟩ := kv
      by_cases h2 : k0 = k
      · subst h2
        simp [rset, rget, rlookup, h]
      · by_cases h3 : k0 = k2
        · subst h3
          simp [rset, h2, rget, rlookup]
        · simpa [rset, h2, rget, rlookup, h3] using ih

theorem rget_rapply_not_mem (data : Row) (r : Row) (k : String)
    (h : ∀ kv ∈ data, kv.1 ≠ k) :
    rget (rapply r data) k = rget r k := by
  induction data generalizing r with
  | nil => simp [rapply]
  | cons kv rest ih =>
      have hk : kv.1 ≠ k := h kv (by simp)
      have hrest : ∀ kv2 ∈ rest, kv2.1 ≠ k := fun kv2 hm => h kv2 (by simp [hm])
      calc rget (rapply r (kv :: rest)) k
          = rget (rapply (rset r kv.1 kv.2) rest) k := by simp [rapply]
        _ = rget (rset r kv.1 kv.2) k := ih _ hrest
        _ = rget r k := rget_rset_ne _ _ _ _ hk

theorem rget_rapply_mem (data : Row) (r : Row) (kv : String × Value)
    (hnd : (data.map Prod.fst).Nodup) (hm : kv ∈ data) :
    rget (rapply r data) kv.1 = kv.2 := by
  induction data generalizing r with
  | nil => simp at hm
  | cons kv0 rest ih =>
      rcases List.mem_cons.mp hm with h | h
      · subst h
        have hk : ∀ kv2 ∈ rest, kv2.1 ≠ kv.1 := by
          intro kv2 hm2
          have := (List.nodup_cons.mp hnd).1
          intro he
          exact this (he ▸ List.mem_map_of_mem Prod.fst hm2)
        calc rget (rapply r (kv :: rest)) kv.1
            = rget (rapply (rset r kv.1 kv.2) rest) kv.1 := by simp [rapply]
          _ = rget (rset r kv.1 kv.2) kv.1 := rget_rapply_not_mem _ _ _ hk
          _ = kv.2 := rget_rset_eq _ _ _
      · have : rget (rapply (rset r kv0.1 kv0.2) rest) kv.1 = kv.2 :=
          ih (rset r kv0.1 kv0.2) (List.nodup_cons.mp hnd).2 h
        simpa [rapply] using this

theorem mem_buildUpdates (allow : List String) (l e : Row) (f : String) (v : Value) :
    (f, v) ∈ buildUpdates allow l e ↔
      f ∈ allow ∧ rlookup l f = some v ∧ v ≠ rget e f := by
  constructor
  · intro h
    rcases List.mem_filterMap.mp h with ⟨a, ha, hfa⟩
    rcases hlook : rlookup l a with _ | w
    · simp [hlook] at hfa
    · rw [hlook] at hfa
      change (if w ≠ rget e a then some (a, w) else none) = some (f, v) at hfa
      by_cases hne : w ≠ rget e a
      · rw [if_pos hne] at hfa
        have h2 := Option.some.inj hfa
        injection h2 with h3 h4
        subst h3
        subst h4
        exact ⟨ha, hlook, hne⟩
      · rw [if_neg hne] at hfa
        exact absurd hfa (by simp)
  · rintro ⟨ha, hlook, hne⟩
    exact List.mem_filterMap.mpr ⟨f, ha, by simp [hlook, hne]⟩

theorem buildUpdates_keys (allow : List String) (l e : Row) :
    ∀ kv ∈ buildUpdates allow l e, kv.1 ∈ allow := by
  intro kv hm
  rcases kv with ⟨f, v⟩
  exact ((mem_buildUpdates allow l e f v).mp hm).1

theorem buildUpdates_keys_eq (allow : List String) (l e : Row) :
    (buildUpdates allow l e).map Prod.fst =
      allow.filter (fun f =>
        match rlookup l f with
        | some v => decide (v ≠ rget e f)
        | none => false) := by
  induction allow with
  | nil => simp [buildUpdates]
  | cons f rest ih =>
      rcases hlook : rlookup l f with _ | v
      · simpa [buildUpdates, List.filterMap_cons, hlook, List.filter_cons] using ih
      · by_cases hne : v ≠ rget e f
        · simpa [buildUpdates, List.filterMap_cons, hlook, hne, List.filter_cons] using ih
        · simpa [buildUpdates, List.filterMap_cons, hlook, hne, List.filter_cons] using ih

theorem buildUpdates_keys_nodup (allow : List String) (l e : Row)
    (h : allow.Nodup) : ((buildUpdates allow l e).map Prod.fst).Nodup := by
  rw [buildUpdates_keys_eq]
  exact h.filter _

theorem buildUpdates_empty_agree (allow : List String) (l e : Row)
    (h : buildUpdates allow l e = []) (f : String) (v : Value)
    (hf : f ∈ allow) (hlook : rlookup l f = some v) : rget e f = v := by
  by_contra hne
  have : (f, v) ∈ buildUpdates allow l e :=
    (mem_buildUpdates allow l e f v).mpr ⟨hf, hlook, fun he => hne he.symm⟩
  simp [h] at this

theorem sqlEq_true_iff (a b : Value) :
    sqlEq a b = true ↔ a = b ∧ a ≠ .null ∧ b ≠ .null := by
  cases a <;> cases b <;> simp [sqlEq]

theorem sqlEq_self (a : Value) (h : a ≠ .null) : sqlEq a a = true :=
  (sqlEq_true_iff a a).mpr ⟨rfl, h, h⟩

theorem sqlEq_null_right (a : Value) : sqlEq a .null = false := by
  cases a <;> simp [sqlEq]

theorem query_one_eq_none_iff (rows : List Row) (p : Row → Bool) :
    query_one rows p = none ↔ rows.filter p = [] := by
  simp [query_one, List.head?_eq_none_iff]

theorem query_one_mem (rows : List Row) (p : Row → Bool) (e : Row)
    (h : query_one rows p = some e) : e ∈ rows ∧ p e = true := by
  have hm : e ∈ rows.filter p := by
    rcases hf : rows.filter p with _ | ⟨a, rest⟩
    · simp [query_one, hf] at h
    · simp only [query_one, hf, List.head?] at h
      simp [hf, Option.some.inj h]
  exact ⟨(List.mem_filter.mp hm).1, (List.mem_filter.mp hm).2⟩

theorem filter_map_of_pres (l : List Row) (F : Row → Row) (p : Row → Bool)
    (h : ∀ r, p (F r) = p r) :
    (l.map F).filter p = (l.filter p).map F := by
  induction l with
  | nil => simp
  | cons a rest ih =>
      by_cases hp : p a
      · simp [List.filter_cons, hp, h, ih]
      · simp only [List.map_cons, List.filter_cons, h, hp]
        simpa using ih

theorem query_one_map_pres (l : List Row) (F : Row → Row) (p : Row → Bool)
    (h : ∀ r, p (F r) = p r) :
    query_one (l.map F) p = (query_one l p).map F := by
  simp [query_one, filter_map_of_pres l F p h, List.head?_map]

instance {ε α : Type} [DecidableEq ε] [DecidableEq α] : DecidableEq (Except ε α) := fun a b =>
  match a, b with
  | .ok x, .ok y =>
      if h : x = y then .isTrue (by rw [h]) else .isFalse (fun hh => h (Except.ok.inj hh))
  | .error x, .error y =>
      if h : x = y then .isTrue (by rw [h]) else .isFalse (fun hh => h (Except.error.inj hh))
  | .ok _, .error _ => .isFalse (fun hh => Except.noConfusion hh)
  | .error _, .ok _ => .isFalse (fun hh => Except.noConfusion hh)

/-- Drop the `_sync_meta` dict from a pulled document; everything else in
the document is a pure function of the store. -/
def stripSyncMeta (d : StationDoc) : StationDoc :=
  { d with meta := [] }

theorem valueLe_trans (a b c : Value) (h1 : valueLe a b = true)
    (h2 : valueLe b c = true) : valueLe a c = true := by
  cases a <;> cases b <;> cases c <;> simp_all [valueLe]
  all_goals exact le_trans h1 h2

theorem valueLe_total (a b : Value) : valueLe a b || valueLe b a := by
  cases a <;> cases b <;> simp [valueLe]
  all_goals exact le_total _ _

instance (k : String) : IsTotal Row (rowLe k) :=
  ⟨fun a b => by
    rcases Bool.or_eq_true_iff.mp (valueLe_total (rget a k) (rget b k)) with h | h
    · exact Or.inl h
    · exact Or.inr h⟩

instance (k : String) : IsTrans Row (rowLe k) :=
  ⟨fun a b c h1 h2 => valueLe_trans _ _ _ h1 h2⟩

theorem sortRows_pairwise (k : String) (rows : List Row) :
    List.Pairwise (rowLe k) (sortRows k rows) :=
  List.sorted_insertionSort (rowLe k) rows

theorem sortRows_perm (k : String) (rows : List Row) :
    (sortRows k rows).Perm rows :=
  List.perm_insertionSort (rowLe k) rows

theorem mem_sortRows (k : String) (rows : List Row) (r : Row) :
    r ∈ sortRows k rows ↔ r ∈ rows :=
  (sortRows_perm k rows).mem_iff

/-- Station used in the round-trip counterexample. -/
def dbC3 : DB :=
  ⟨[[("id", .int 1), ("acronym", .str "SVB")]], [], [], [], 2⟩

/-- C3. Counterexample: pull_station embeds the pull time in
`_sync_meta.pulled_at` (sync_data.py lines 66-69), so assembling the same
unchanged store at two different clock readings yields two documents
that are not byte-identical — their `_sync_meta` dicts differ. -/
theorem C3_counterexample :
    pull_station dbC3 "SVB" "2024-01-01T00:00:00" ≠
      pull_station dbC3 "SVB" "2024-01-01T00:00:01" := by
  intro h
  have hq : query_one dbC3.stations (byKey "acronym" (Value.str "SVB")) =
      some [("id", .int 1), ("acronym", .str "SVB")] := rfl
  simp only [pull_station, hq] at h
  have h2 := congrArg StationDoc.meta (Except.ok.inj h)
  simp at h2

/-- C3 (amended). With no intervening writes, two assemblies differ only
in the `_sync_meta` stamp: stripping it yields equal documents whatever
the two clock readings were, and within each nesting level the child
lists are ordered by the natural-key column of the corresponding query
(normalized_name for platforms and instruments, roi_name for ROIs). -/
theorem C3_pull_deterministic (db : DB) (a t1 t2 : String) :
    (pull_station db a t1).map stripSyncMeta =
      (pull_station db a t2).map stripSyncMeta ∧
    (∀ doc, pull_station db a t1 = .ok doc →
      List.Pairwise
        (fun p q => valueLe (rget p.fields "normalized_name")
          (rget q.fields "normalized_name") = true) doc.platforms ∧
      (∀ pd ∈ doc.platforms,
        List.Pairwise
          (fun p q => valueLe (rget p.fields "normalized_name")
            (rget q.fields "normalized_name") = true) pd.instruments ∧
        ∀ idc ∈ pd.instruments,
          List.Pairwise
            (fun p q => valueLe (rget p "roi_name") (rget q "roi_name") = true)
            idc.rois)) := by
  constructor
  · cases hq : query_one db.stations (byKey "acronym" (.str a)) with
    | none => simp [pull_station, hq]
    | some s => simp [pull_station, hq, stripSyncMeta, Except.map]
  · intro doc hdoc
    cases hq : query_one db.stations (byKey "acronym" (.str a)) with
    | none => simp [pull_station, hq] at hdoc
    | some s =>
        simp only [pull_station, hq] at hdoc
        obtain rfl := Except.ok.inj hdoc
        constructor
        · rw [List.pairwise_map]
          exact sortRows_pairwise _ _
        · intro pd hpd
          simp only [List.mem_map] at hpd
          obtain ⟨p, hp, rfl⟩ := hpd
          constructor
          · rw [List.pairwise_map]
            exact sortRows_pairwise _ _
          · intro idc hidc
            simp only [List.mem_map] at hidc
            obtain ⟨i, hi, rfl⟩ := hidc
            exact sortRows_pairwise _ _

/-- C3 witness: the deterministic part of the amended statement evaluated
at a concrete store, document and pair of clock readings. -/
theorem C3_pull_deterministic_w :
    (pull_station dbC3 "SVB" "t1").map stripSyncMeta =
      (pull_station dbC3 "SVB" "t2").map stripSyncMeta ∧
    ∀ doc, pull_station dbC3 "SVB" "t1" = .ok doc →
      List.Pairwise
        (fun p q => valueLe (rget p.fields "normalized_name")
          (rget q.fields "normalized_name") = true) doc.platforms :=
  ⟨(C3_pull_deterministic dbC3 "SVB" "t1" "t2").1,
   fun doc hdoc => (((C3_pull_deterministic dbC3 "SVB" "t1" "t2").2) doc hdoc).1⟩

/-- Join row witnessing the camera sub-object rule: camera_brand is NULL
while camera_model is populated. -/
def joinRowC7 : JoinRow :=
  ⟨.str "SVB", .str "Svartberget", .str "SVB_FOR_PL01", .str "P1", .str "FOR01",
   .null, .null, .null, .null, .str "SVB_FOR_PL01_PHE01", .str "I1",
   .str "phenocam", .null, .str "Active", .null, .null, .null,
   .null, .str "NIKON D300", .null, .null, .null, .null⟩

/-- C7. Counterexample: the exporter gates the camera sub-object on
`row['camera_brand']` alone (export_db_to_yaml.py line 97), so a row
whose camera_model is non-null but whose camera_brand is NULL gets no
camera sub-object, refuting presence-iff-some-constituent-non-null. -/
theorem C7_counterexample :
    ¬ ((buildInstrumentEntry joinRowC7).camera.isSome ↔
        (joinRowC7.camera_brand ≠ Value.null ∨
         joinRowC7.camera_model ≠ Value.null ∨
         joinRowC7.camera_serial_number ≠ Value.null)) := by
  decide

/-- C7 (amended). The camera sub-object is present in the produced entry
exactly when the camera_brand column is truthy (non-null, non-empty),
and the sensor sub-object exactly when sensor_brand is truthy;
constituent fields other than the brand have no influence on presence. -/
theorem C7_subobject_iff_brand (row : JoinRow) :
    (buildInstrumentEntry row).camera.isSome = isTruthy row.camera_brand ∧
    (buildInstrumentEntry row).sensor.isSome = isTruthy row.sensor_brand := by
  constructor
  · by_cases h : isTruthy row.camera_brand <;> simp [buildInstrumentEntry, h]
  · by_cases h : isTruthy row.sensor_brand <;> simp [buildInstrumentEntry, h]

/-- Station row for the diff normalization counterexample: display_name
is absent from the row (unset). -/
def dbC5 : DB :=
  ⟨[[("id", .int 1), ("acronym", .str "ANS")]], [], [], [], 2⟩

/-- Local document for the diff normalization counterexample:
display_name is the empty string (unset under the claimed
normalization). -/
def candC5 : StationDoc :=
  ⟨[("display_name", .str "")], [], []⟩

/-- C5. Counterexample: diff_station compares values with plain `!=`
after `dict.get` (sync_data.py lines 201-203); the empty string is not
normalized to unset, so a document carrying `display_name: ""` against a
row where the column is absent/NULL yields a FieldChange even though
both sides are unset under the claimed absence normalization. -/
theorem C5_counterexample :
    diff_station dbC5 "ANS" candC5 =
      .ok ⟨[⟨"display_name", .str "", .null⟩], [], []⟩ := by
  rfl

theorem localPlatMapGo_ok (ps : List PlatDoc) (acc : List (Value × PlatDoc))
    (h : ∀ p ∈ ps, hasKey p.fields "normalized_name" = true) :
    ∃ m, localPlatMapGo ps acc = .ok m := by
  induction ps generalizing acc with
  | nil => exact ⟨acc, rfl⟩
  | cons p rest ih =>
      have hp := h p (by simp)
      rcases hl : rlookup p.fields "normalized_name" with _ | nm
      · simp [hasKey, hl] at hp
      · simpa [localPlatMapGo, hl] using
          ih (pdictSet acc nm p) (fun q hq => h q (by simp [hq]))

/-- C5 (amended). The only absence normalization diff_station performs is
the one `dict.get` gives for free: a missing key reads as None, so
missing and null compare equal; values equal after that missing-to-null
reading produce no FieldChange at either the station or the platform
level. The empty string is not normalized (see the counterexample). -/
theorem C5_no_diff_when_get_equal (db : DB) (a : String) (cand : StationDoc)
    (s : Row)
    (hs : query_one db.stations (byKey "acronym" (.str a)) = some s)
    (hkeys : ∀ p ∈ cand.platforms, hasKey p.fields "normalized_name" = true)
    (hst : ∀ f ∈ diffStationFields, rget cand.fields f = rget s f)
    (hpl : ∀ m, localPlatMap cand.platforms = .ok m →
      ∀ dbp ∈ db.platforms.filter (byKey "station_id" (rget s "id")),
        ∀ lp, mapGet m (rget dbp "normalized_name") = some lp →
          ∀ f ∈ diffPlatformFields, rget lp.fields f = rget dbp f) :
    diff_station db a cand = .ok ⟨[], [], []⟩ := by
  obtain ⟨m, hm⟩ := localPlatMapGo_ok cand.platforms [] hkeys
  have hm2 : localPlatMap cand.platforms = .ok m := hm
  have hstation : diffStationFields.filterMap (fun f =>
      let lv := rget cand.fields f
      let dv := rget s f
      if lv ≠ dv then some (⟨f, lv, dv⟩ : StationFieldDiff) else none) = [] := by
    rw [List.filterMap_eq_nil_iff]
    intro f hf
    simp [hst f hf]
  have hplats : (db.platforms.filter (byKey "station_id" (rget s "id"))).flatMap
      (fun dbp =>
        match mapGet m (rget dbp "normalized_name") with
        | none => []
        | some lp => diffPlatformFields.filterMap (fun f =>
            let lv := rget lp.fields f
            let dv := rget dbp f
            if lv ≠ dv then
              some (⟨rget dbp "normalized_name", f, lv, dv⟩ : PlatformFieldDiff)
            else none)) = [] := by
    rw [List.flatMap_eq_nil_iff]
    intro dbp hdbp
    rcases hg : mapGet m (rget dbp "normalized_name") with _ | lp
    · rfl
    · rw [List.filterMap_eq_nil_iff]
      intro f hf
      simp [hpl m hm2 dbp hdbp lp hg f hf]
  simp only [diff_station, hs, hm2, hstation, hplats]

/-- Store for the C5 witness: display_name NULL on the station, status
NULL on the platform, while the candidate omits both keys. -/
def dbC5w : DB :=
  ⟨[[("id", .int 1), ("acronym", .str "S"), ("display_name", .null)]],
   [[("id", .int 2), ("station_id", .int 1), ("normalized_name", .str "P"),
     ("status", .null)]], [], [], 3⟩

/-- Candidate for the C5 witness: mentions the platform by name and omits
every compared field. -/
def candC5w : StationDoc :=
  ⟨[], [⟨[("normalized_name", .str "P")], []⟩], []⟩

/-- C5 witness: a candidate omitting fields the store holds as NULL
diffs clean. -/
theorem C5_no_diff_when_get_equal_w :
    diff_station dbC5w "S" candC5w = .ok ⟨[], [], []⟩ := by
  apply C5_no_diff_when_get_equal dbC5w "S" candC5w
    [("id", .int 1), ("acronym", .str "S"), ("display_name", .null)] rfl
  · decide
  · decide
  · intro m hm
    have hval : localPlatMap candC5w.platforms =
        .ok [(Value.str "P", ⟨[("normalized_name", .str "P")], []⟩)] := rfl
    rw [hval] at hm
    obtain rfl := Except.ok.inj hm
    intro dbp hdbp lp hlp f hf
    have hfilt : dbC5w.platforms.filter
        (byKey "station_id" (rget [("id", .int 1), ("acronym", .str "S"),
          ("display_name", .null)] "id")) =
        [[("id", .int 2), ("station_id", .int 1),
          ("normalized_name", .str "P"), ("status", .null)]] := rfl
    rw [hfilt] at hdbp
    have hdbp2 := List.mem_singleton.mp hdbp
    subst hdbp2
    have hlp2 : lp = (⟨[("normalized_name", .str "P")], []⟩ : PlatDoc) := by
      have : mapGet [(Value.str "P", (⟨[("normalized_name", .str "P")], []⟩ : PlatDoc))]
          (rget [("id", .int 2), ("station_id", .int 1),
            ("normalized_name", .str "P"), ("status", .null)] "normalized_name") =
          some ⟨[("normalized_name", .str "P")], []⟩ := rfl
      rw [this] at hlp
      exact (Option.some.inj hlp).symm
    subst hlp2
    fin_cases hf <;> rfl

/-- C9. A failed top-level station lookup is fatal before any mutation:
pull, push, diff and both bulk loaders raise the not-found ValueError,
return no partial result, execute no statement and leave the store as it
was. -/
theorem C9_station_not_found (db : DB) (a : String) (cand : StationDoc)
    (rows : List Row) (dryRun : Bool) (t : String)
    (h : query_one db.stations (byKey "acronym" (.str a)) = none) :
    pull_station db a t = .error ("Station " ++ a ++ " not found") ∧
    push_station db a cand dryRun t =
      ⟨.error ("Station " ++ a ++ " not found"), db, []⟩ ∧
    diff_station db a cand = .error ("Station " ++ a ++ " not found") ∧
    import_instruments db a rows dryRun t =
      ⟨.error ("Station " ++ a ++ " not found"), db, []⟩ ∧
    import_platforms db a rows dryRun t =
      ⟨.error ("Station " ++ a ++ " not found"), db, []⟩ := by
  refine ⟨?_, ?_, ?_, ?_, ?_⟩ <;>
    simp [pull_station, push_station, diff_station, import_instruments,
      import_platforms, h]

/-- C9 witness: the empty store has no station XYZ. -/
theorem C9_station_not_found_w :
    pull_station ⟨[], [], [], [], 1⟩ "XYZ" "T" =
      .error "Station XYZ not found" ∧
    push_station ⟨[], [], [], [], 1⟩ "XYZ" ⟨[], [], []⟩ false "T" =
      ⟨.error "Station XYZ not found", ⟨[], [], [], [], 1⟩, []⟩ := by
  have h := C9_station_not_found ⟨[], [], [], [], 1⟩ "XYZ" ⟨[], [], []⟩ [] false "T" rfl
  exact ⟨h.1, h.2.1⟩

/-- Platform map import_instruments builds for a station
(bulk_import.py lines 49-53). -/
def pmOf (db : DB) (s : Row) : List (Value × Value) :=
  buildPlatformMap (db.platforms.filter (byKey "station_id" (rget s "id")))

theorem buildInstrumentData_error_of_unresolved (pm : List (Value × Value))
    (now : String) (row : Row) (h : platResolves pm row = false) :
    buildInstrumentData pm now row =
      .error ("Platform '" ++ pyStr (rowPlatName row) ++ "' not found") := by
  rcases hg : vdictGet pm (rowPlatName row) with _ | v
  · simp [buildInstrumentData, hg]
  · have hv : isTruthy v = false := by
      unfold platResolves at h
      rw [hg] at h
      exact h
    simp [buildInstrumentData, hg, hv]

theorem importInstLoop_ok (pm : List (Value × Value)) (now : String)
    (rows : List Row) (i : Nat) (db : DB) (imported : List Row)
    (errs : List String)
    (h : ∀ row ∈ rows, ∃ d, buildInstrumentData pm now row = .ok d) :
    ∃ db2 imported2,
      importInstLoop pm false now rows i db imported errs =
        (db2, imported2, errs) ∧
      imported2.length = imported.length + rows.length ∧
      db2.instruments.length = db.instruments.length + rows.length ∧
      db2.stations = db.stations ∧ db2.platforms = db.platforms ∧
      db2.rois = db.rois := by
  induction rows generalizing i db imported with
  | nil => exact ⟨db, imported, rfl, by simp, by simp, rfl, rfl, rfl⟩
  | cons row rest ih =>
      obtain ⟨d, hd⟩ := h row (by simp)
      have hrest : ∀ r ∈ rest, ∃ d2, buildInstrumentData pm now r = .ok d2 :=
        fun r hr => h r (by simp [hr])
      obtain ⟨db2, imported2, heq, hlen1, hlen2, hst, hpl, hro⟩ :=
        ih (i + 1)
          { db with
            instruments := rowsInsert db.instruments db.nextId d
            nextId := db.nextId + 1 }
          (imported ++ [rset d "id" (.int db.nextId)]) hrest
      refine ⟨db2, imported2, ?_, ?_, ?_, hst, hpl, hro⟩
      · simpa [importInstLoop, hd] using heq
      · simp [hlen1]
        omega
      · simp only [hlen2, rowsInsert, List.length_append]
        simp
        omega

theorem importInstLoop_split (pm : List (Value × Value)) (now : String)
    (pre post : List Row) (bad : Row) (i : Nat) (db : DB)
    (imported : List Row) (errs : List String)
    (hpre : ∀ row ∈ pre, ∃ d, buildInstrumentData pm now row = .ok d)
    (hpost : ∀ row ∈ post, ∃ d, buildInstrumentData pm now row = .ok d)
    (hbad : platResolves pm bad = false) :
    ∃ db2 imported2,
      importInstLoop pm false now (pre ++ bad :: post) i db imported errs =
        (db2, imported2,
          errs ++ ["Row " ++ toString (i + pre.length) ++ ": " ++
            ("Platform '" ++ pyStr (rowPlatName bad) ++ "' not found")]) ∧
      imported2.length = imported.length + pre.length + post.length ∧
      db2.instruments.length =
        db.instruments.length + pre.length + post.length ∧
      db2.stations = db.stations ∧ db2.platforms = db.platforms ∧
      db2.rois = db.rois := by
  induction pre generalizing i db imported with
  | nil =>
      have herr := buildInstrumentData_error_of_unresolved pm now bad hbad
      obtain ⟨db2, imported2, heq, hlen1, hlen2, hst, hpl, hro⟩ :=
        importInstLoop_ok pm now post (i + 1) db imported
          (errs ++ ["Row " ++ toString i ++ ": " ++
            ("Platform '" ++ pyStr (rowPlatName bad) ++ "' not found")]) hpost
      refine ⟨db2, imported2, ?_, by simpa using hlen1, by simpa using hlen2,
        hst, hpl, hro⟩
      simpa [importInstLoop, herr] using heq
  | cons row rest ih =>
      obtain ⟨d, hd⟩ := hpre row (by simp)
      have hrest : ∀ r ∈ rest, ∃ d2, buildInstrumentData pm now r = .ok d2 :=
        fun r hr => hpre r (by simp [hr])
      obtain ⟨db2, imported2, heq, hlen1, hlen2, hst, hpl, hro⟩ :=
        ih (i + 1)
          { db with
            instruments := rowsInsert db.instruments db.nextId d
            nextId := db.nextId + 1 }
          (imported ++ [rset d "id" (.int db.nextId)]) hrest
      refine ⟨db2, imported2, ?_, ?_, ?_, hst, hpl, hro⟩
      · have hidx : i + 1 + rest.length = i + (rest.length + 1) := by omega
        rw [hidx] at heq
        simpa [importInstLoop, hd] using heq
      · simp only [hlen1, List.length_append, List.length_cons]
        simp
        omega
      · simp only [hlen2, rowsInsert, List.length_append, List.length_cons]
        simp
        omega

/-- C6 (amended). Batch isolation of the instrument bulk loader: with one
row carrying an unresolvable platform reference among otherwise loadable
rows, the loader inserts exactly N-1 instruments, never aborts, and the
single accumulated error names the bad row by its 1-based index; the
error list is printed in the summary while the Python return value is
the imported list. -/
theorem C6_batch_isolation (db : DB) (a : String) (s : Row)
    (pre post : List Row) (bad : Row) (t : String)
    (hs : query_one db.stations (byKey "acronym" (.str a)) = some s)
    (hpre : ∀ row ∈ pre, ∃ d, buildInstrumentData (pmOf db s) t row = .ok d)
    (hpost : ∀ row ∈ post, ∃ d, buildInstrumentData (pmOf db s) t row = .ok d)
    (hbad : platResolves (pmOf db s) bad = false) :
    ∃ imported db2,
      import_instruments db a (pre ++ bad :: post) false t =
        ⟨.ok imported, db2,
          ["Row " ++ toString (pre.length + 1) ++ ": " ++
            ("Platform '" ++ pyStr (rowPlatName bad) ++ "' not found")]⟩ ∧
      imported.length = pre.length + post.length ∧
      db2.instruments.length =
        db.instruments.length + (pre.length + post.length) ∧
      db2.stations = db.stations ∧ db2.platforms = db.platforms ∧
      db2.rois = db.rois := by
  obtain ⟨db2, imported2, heq, h1, h2, h3, h4, h5⟩ :=
    importInstLoop_split (pmOf db s) t pre post bad 1 db [] [] hpre hpost hbad
  rw [Nat.add_comm 1 pre.length] at heq
  refine ⟨imported2, db2, ?_, by simpa using h1, by omega, h3, h4, h5⟩
  simp only [import_instruments, hs]
  simp only [pmOf] at heq
  rw [heq]
  simp

/-- Rows for the C6 scenarios: the middle row references a platform that
does not exist at the station. -/
def rowC6a : Row :=
  [("platform", .str "P1"), ("normalized_name", .str "NEW1"),
   ("instrument_type", .str "phenocam")]

def rowC6b : Row :=
  [("platform", .str "PX"), ("normalized_name", .str "NEW2"),
   ("instrument_type", .str "phenocam")]

def rowC6c : Row :=
  [("platform", .str "P1"), ("normalized_name", .str "NEW3"),
   ("instrument_type", .str "phenocam")]

/-- Store for the C6 scenarios: one station, one platform P1. -/
def dbC6 : DB :=
  ⟨[[("id", .int 1), ("acronym", .str "SVB")]],
   [[("id", .int 7), ("station_id", .int 1), ("normalized_name", .str "P1")]],
   [], [], 100⟩

/-- C6. Counterexample: the Python return value of import_instruments
(line 120 `return imported`) is the imported list alone; the row-2 error
appears only in the accumulated-and-printed error list, not in anything
returned, so the claim that the failing row is recorded in the returned
error list fails on this input. -/
theorem C6_counterexample :
    (import_instruments dbC6 "SVB" [rowC6a, rowC6b, rowC6c] false "T").res =
      .ok
        [[("platform_id", .int 7), ("normalized_name", .str "NEW1"),
          ("display_name", .str "NEW1"), ("instrument_type", .str "phenocam"),
          ("status", .str "Active"), ("created_at", .str "T"),
          ("updated_at", .str "T"), ("id", .int 100)],
         [("platform_id", .int 7), ("normalized_name", .str "NEW3"),
          ("display_name", .str "NEW3"), ("instrument_type", .str "phenocam"),
          ("status", .str "Active"), ("created_at", .str "T"),
          ("updated_at", .str "T"), ("id", .int 101)]] ∧
    (import_instruments dbC6 "SVB" [rowC6a, rowC6b, rowC6c] false "T").errs =
      ["Row 2: Platform 'PX' not found"] :=
  ⟨rfl, rfl⟩

/-- C6 witness: the amended statement at the concrete three-row batch. -/
theorem C6_batch_isolation_w :
    ∃ imported db2,
      import_instruments dbC6 "SVB" ([rowC6a] ++ rowC6b :: [rowC6c]) false "T" =
        ⟨.ok imported, db2,
          ["Row " ++ toString ([rowC6a].length + 1) ++ ": " ++
            ("Platform '" ++ pyStr (rowPlatName rowC6b) ++ "' not found")]⟩ ∧
      imported.length = [rowC6a].length + [rowC6c].length ∧
      db2.instruments.length =
        dbC6.instruments.length + ([rowC6a].length + [rowC6c].length) ∧
      db2.stations = dbC6.stations ∧ db2.platforms = dbC6.platforms ∧
      db2.rois = dbC6.rois := by
  apply C6_batch_isolation dbC6 "SVB" [("id", .int 1), ("acronym", .str "SVB")]
    [rowC6a] [rowC6c] rowC6b "T" rfl ?_ ?_ rfl
  · intro row hrow
    rw [List.mem_singleton] at hrow
    subst hrow
    exact ⟨_, rfl⟩
  · intro row hrow
    rw [List.mem_singleton] at hrow
    subst hrow
    exact ⟨_, rfl⟩

/-- A row transformation that leaves the listed columns unchanged. -/
def PresKeys (F : Row → Row) (ks : List String) : Prop :=
  ∀ r : Row, ∀ k ∈ ks, rget (F r) k = rget r k

theorem presKeys_id (ks : List String) : PresKeys (fun r => r) ks :=
  fun _ _ _ => rfl

theorem presKeys_comp (F G : Row → Row) (ks : List String)
    (hF : PresKeys F ks) (hG : PresKeys G ks) :
    PresKeys (fun r => G (F r)) ks :=
  fun r k hk => (hG (F r) k hk).trans (hF r k hk)

theorem presKeys_updateFun (idv : Value) (data : Row) (ks : List String)
    (h : ∀ kv ∈ data, kv.1 ∉ ks) :
    PresKeys (fun r => if sqlEq (rget r "id") idv then rapply r data else r)
      ks := by
  intro r k hk
  dsimp only
  by_cases hc : sqlEq (rget r "id") idv
  · rw [if_pos hc]
    exact rget_rapply_not_mem data r k (fun kv hkv he => h kv hkv (he ▸ hk))
  · rw [if_neg hc]

theorem pushData_keys_not_mem (allow : List String) (l e : Row) (now : String)
    (ks : List String) (hks : ∀ k ∈ ks, k ∉ allow ∧ k ≠ "updated_at") :
    ∀ kv ∈ buildUpdates allow l e ++ [("updated_at", Value.str now)],
      kv.1 ∉ ks := by
  intro kv hm hk
  rcases List.mem_append.mp hm with h | h
  · exact (hks kv.1 hk).1 (buildUpdates_keys allow l e kv h)
  · rw [List.mem_singleton] at h
    subst h
    exact (hks _ hk).2 rfl

/-- Columns never touched by an instrument update statement. -/
def instFrameKeys : List String := ["id", "normalized_name", "platform_id"]

/-- Columns never touched by a platform update statement. -/
def platFrameKeys : List String := ["id", "normalized_name", "station_id"]

/-- Columns never touched by a station update statement. -/
def stationFrameKeys : List String := ["id", "acronym"]

theorem pushInstLoop_frame (dry : Bool) (now : String) (insts : List Row)
    (st : LoopSt) :
    ∃ G : Row → Row,
      (pushInstLoop dry now insts st).1.db.stations = st.db.stations ∧
      (pushInstLoop dry now insts st).1.db.platforms = st.db.platforms ∧
      (pushInstLoop dry now insts st).1.db.rois = st.db.rois ∧
      (pushInstLoop dry now insts st).1.db.nextId = st.db.nextId ∧
      (pushInstLoop dry now insts st).1.db.instruments =
        st.db.instruments.map G ∧
      PresKeys G instFrameKeys ∧
      (∀ m ∈ (pushInstLoop dry now insts st).1.muts,
        m ∈ st.muts ∨ m.table = "instruments") := by
  induction insts generalizing st with
  | nil =>
      exact ⟨fun r => r, rfl, rfl, rfl, rfl, (List.map_id _).symm,
        presKeys_id _, fun m hm => Or.inl hm⟩
  | cons li rest ih =>
      rcases hlook : rlookup li "normalized_name" with _ | nm
      · have hred : pushInstLoop dry now (li :: rest) st =
            (st, some "KeyError: 'normalized_name'") := by
          simp [pushInstLoop, hlook]
        rw [hred]
        exact ⟨fun r => r, rfl, rfl, rfl, rfl, (List.map_id _).symm,
          presKeys_id _, fun m hm => Or.inl hm⟩
      · rcases hq : query_one st.db.instruments (byKey "normalized_name" nm)
          with _ | ex
        · have hred : pushInstLoop dry now (li :: rest) st =
              pushInstLoop dry now rest st := by
            simp [pushInstLoop, hlook, hq]
          rw [hred]
          exact ih st
        · by_cases hupd : buildUpdates instrumentFields li ex = []
          · have hred : pushInstLoop dry now (li :: rest) st =
                pushInstLoop dry now rest st := by
              simp [pushInstLoop, hlook, hq, hupd]
            rw [hred]
            exact ih st
          · cases dry with
            | true =>
                have hred : pushInstLoop true now (li :: rest) st =
                    pushInstLoop true now rest
                      { st with muts := st.muts ++
                        [⟨"instruments", rget ex "id",
                          buildUpdates instrumentFields li ex ++
                            [("updated_at", .str now)]⟩] } := by
                  simp [pushInstLoop, hlook, hq, hupd]
                rw [hred]
                obtain ⟨G, h1, h2, h3, h4, h5, h6, h7⟩ := ih _
                refine ⟨G, h1, h2, h3, h4, h5, h6, fun m hm => ?_⟩
                rcases h7 m hm with h | h
                · rcases List.mem_append.mp h with h | h
                  · exact Or.inl h
                  · rw [List.mem_singleton] at h
                    subst h
                    exact Or.inr rfl
                · exact Or.inr h
            | false =>
                have hred : pushInstLoop false now (li :: rest) st =
                    pushInstLoop false now rest
                      { db := { st.db with
                          instruments := rowsUpdate st.db.instruments
                            (rget ex "id")
                            (buildUpdates instrumentFields li ex ++
                              [("updated_at", .str now)]) }
                        updated := st.updated + 1
                        muts := st.muts ++
                          [⟨"instruments", rget ex "id",
                            buildUpdates instrumentFields li ex ++
                              [("updated_at", .str now)]⟩] } := by
                  simp [pushInstLoop, hlook, hq, hupd]
                rw [hred]
                obtain ⟨G, h1, h2, h3, h4, h5, h6, h7⟩ := ih _
                have hFpres : PresKeys
                    (fun r => if sqlEq (rget r "id") (rget ex "id") then
                      rapply r (buildUpdates instrumentFields li ex ++
                        [("updated_at", .str now)]) else r) instFrameKeys :=
                  presKeys_updateFun _ _ _
                    (pushData_keys_not_mem instrumentFields li ex now
                      instFrameKeys (by decide))
                refine ⟨_, h1, h2, h3, h4, ?_, presKeys_comp _ G instFrameKeys
                  hFpres h6, fun m hm => ?_⟩
                · rw [h5]
                  simp only [rowsUpdate, List.map_map]
                  rfl
                · rcases h7 m hm with h | h
                  · rcases List.mem_append.mp h with h | h
                    · exact Or.inl h
                    · rw [List.mem_singleton] at h
                      subst h
                      exact Or.inr rfl
                  · exact Or.inr h

theorem pushPlatLoop_frame (dry : Bool) (now : String) (plats : List PlatDoc)
    (st : LoopSt) :
    ∃ F G : Row → Row,
      (pushPlatLoop dry now plats st).1.db.stations = st.db.stations ∧
      (pushPlatLoop dry now plats st).1.db.rois = st.db.rois ∧
      (pushPlatLoop dry now plats st).1.db.nextId = st.db.nextId ∧
      (pushPlatLoop dry now plats st).1.db.platforms =
        st.db.platforms.map F ∧
      (pushPlatLoop dry now plats st).1.db.instruments =
        st.db.instruments.map G ∧
      PresKeys F platFrameKeys ∧ PresKeys G instFrameKeys ∧
      (∀ m ∈ (pushPlatLoop dry now plats st).1.muts,
        m ∈ st.muts ∨ m.table = "platforms" ∨ m.table = "instruments") := by
  induction plats generalizing st with
  | nil =>
      exact ⟨fun r => r, fun r => r, rfl, rfl, rfl, (List.map_id _).symm,
        (List.map_id _).symm, presKeys_id _, presKeys_id _,
        fun m hm => Or.inl hm⟩
  | cons lp rest ih =>
      rcases hlook : rlookup lp.fields "normalized_name" with _ | nm
      · have hred : pushPlatLoop dry now (lp :: rest) st =
            (st, some "KeyError: 'normalized_name'") := by
          simp [pushPlatLoop, hlook]
        rw [hred]
        exact ⟨fun r => r, fun r => r, rfl, rfl, rfl, (List.map_id _).symm,
          (List.map_id _).symm, presKeys_id _, presKeys_id _,
          fun m hm => Or.inl hm⟩
      · rcases hq : query_one st.db.platforms (byKey "normalized_name" nm)
          with _ | ex
        · have hred : pushPlatLoop dry now (lp :: rest) st =
              pushPlatLoop dry now rest st := by
            simp [pushPlatLoop, hlook, hq]
          rw [hred]
          obtain ⟨F, G, h1, h2, h3, h4, h5, h6, h7, h8⟩ := ih st
          exact ⟨F, G, h1, h2, h3, h4, h5, h6, h7,
            fun m hm => (h8 m hm).imp id id⟩
        · -- the platform part of the step: state st1 after the optional update
          set upd := buildUpdates platformFields lp.fields ex with hupddef
          set st1 : LoopSt :=
            (if upd = [] then st
             else
               let data := upd ++ [("updated_at", .str now)]
               let stmt : Mutation := ⟨"platforms", rget ex "id", data⟩
               if dry then { st with muts := st.muts ++ [stmt] }
               else
                 { db := { st.db with
                     platforms := rowsUpdate st.db.platforms (rget ex "id") data }
                   updated := st.updated + 1
                   muts := st.muts ++ [stmt] }) with hst1def
          have hred : pushPlatLoop dry now (lp :: rest) st =
              (match pushInstLoop dry now (lp.instruments.map InstDoc.fields) st1 with
               | (st2, some e) => (st2, some e)
               | (st2, none) => pushPlatLoop dry now rest st2) := by
            rw [hst1def, hupddef]
            simp only [pushPlatLoop, hlook, hq]
          -- facts about st1 relative to st
          have hst1 : ∃ F0 : Row → Row,
              st1.db.stations = st.db.stations ∧
              st1.db.rois = st.db.rois ∧
              st1.db.nextId = st.db.nextId ∧
              st1.db.platforms = st.db.platforms.map F0 ∧
              st1.db.instruments = st.db.instruments ∧
              PresKeys F0 platFrameKeys ∧
              (∀ m ∈ st1.muts, m ∈ st.muts ∨ m.table = "platforms") := by
            rw [hst1def]
            by_cases hupd : upd = []
            · rw [if_pos hupd]
              exact ⟨fun r => r, rfl, rfl, rfl, (List.map_id _).symm, rfl,
                presKeys_id _, fun m hm => Or.inl hm⟩
            · rw [if_neg hupd]
              have hFpres : PresKeys
                  (fun r => if sqlEq (rget r "id") (rget ex "id") then
                    rapply r (upd ++ [("updated_at", .str now)]) else r)
                  platFrameKeys := by
                rw [hupddef]
                exact presKeys_updateFun _ _ _
                  (pushData_keys_not_mem platformFields lp.fields ex now
                    platFrameKeys (by decide))
              cases dry with
              | true =>
                  refine ⟨fun r => r, rfl, rfl, rfl, (List.map_id _).symm, rfl,
                    presKeys_id _, fun m hm => ?_⟩
                  rcases List.mem_append.mp hm with h | h
                  · exact Or.inl h
                  · rw [List.mem_singleton] at h
                    subst h
                    exact Or.inr rfl
              | false =>
                  refine ⟨_, rfl, rfl, rfl, rfl, rfl, hFpres, fun m hm => ?_⟩
                  rcases List.mem_append.mp hm with h | h
                  · exact Or.inl h
                  · rw [List.mem_singleton] at h
                    subst h
                    exact Or.inr rfl
          obtain ⟨F0, hs1, hs2, hs3, hs4, hs5, hs6, hs7⟩ := hst1
          obtain ⟨G1, hi1, hi2, hi3, hi4, hi5, hi6, hi7⟩ :=
            pushInstLoop_frame dry now (lp.instruments.map InstDoc.fields) st1
          rcases hrun : pushInstLoop dry now (lp.instruments.map InstDoc.fields)
            st1 with ⟨st2, e?⟩
          have hst2 : st2 = (pushInstLoop dry now
              (lp.instruments.map InstDoc.fields) st1).1 := by rw [hrun]
          rw [← hst2] at hi1 hi2 hi3 hi4 hi5 hi7
          cases e? with
          | some e =>
              rw [hred, hrun]
              dsimp only
              refine ⟨F0, G1, ?_, ?_, ?_, ?_, ?_, hs6, hi6, fun m hm => ?_⟩
              · rw [hi1, hs1]
              · rw [hi3, hs2]
              · rw [hi4, hs3]
              · rw [hi2, hs4]
              · rw [hi5, hs5]
              · rcases hi7 m hm with h | h
                · rcases hs7 m h with h2 | h2
                  · exact Or.inl h2
                  · exact Or.inr (Or.inl h2)
                · exact Or.inr (Or.inr h)
          | none =>
              rw [hred, hrun]
              dsimp only
              obtain ⟨F2, G2, hr1, hr2, hr3, hr4, hr5, hr6, hr7, hr8⟩ := ih st2
              refine ⟨fun r => F2 (F0 r), fun r => G2 (G1 r), ?_, ?_, ?_, ?_, ?_,
                presKeys_comp _ _ _ hs6 hr6, presKeys_comp _ _ _ hi6 hr7,
                fun m hm => ?_⟩
              · rw [hr1, hi1, hs1]
              · rw [hr2, hi3, hs2]
              · rw [hr3, hi4, hs3]
              · rw [hr4, hi2, hs4, List.map_map]
                rfl
              · rw [hr5, hi5, hs5, List.map_map]
                rfl
              · rcases hr8 m hm with h | h
                · rcases hi7 m h with h2 | h2
                  · rcases hs7 m h2 with h3 | h3
                    · exact Or.inl h3
                    · exact Or.inr (Or.inl h3)
                  · exact Or.inr (Or.inr h2)
                · exact Or.inr h

theorem query_one_none_map (l : List Row) (F : Row → Row) (p : Row → Bool)
    (hpres : ∀ r, p (F r) = p r) (h : query_one l p = none) :
    query_one (l.map F) p = none := by
  rw [query_one_eq_none_iff] at h ⊢
  rw [filter_map_of_pres l F p hpres, h]
  rfl

theorem stationStep_facts (db : DB) (s : Row) (cand : StationDoc)
    (dry : Bool) (t : String) :
    ∃ S0 : Row → Row,
      (stationStep db s cand dry t).db.stations = db.stations.map S0 ∧
      (stationStep db s cand dry t).db.platforms = db.platforms ∧
      (stationStep db s cand dry t).db.instruments = db.instruments ∧
      (stationStep db s cand dry t).db.rois = db.rois ∧
      (stationStep db s cand dry t).db.nextId = db.nextId ∧
      PresKeys S0 stationFrameKeys ∧
      (∀ m ∈ (stationStep db s cand dry t).muts, m.table = "stations") := by
  unfold stationStep
  by_cases hupd : buildUpdates stationFields cand.fields s = []
  · rw [if_pos hupd]
    exact ⟨fun r => r, (List.map_id _).symm, rfl, rfl, rfl, rfl,
      presKeys_id _, by intro m hm; simp at hm⟩
  · rw [if_neg hupd]
    have hSpres : PresKeys
        (fun r => if sqlEq (rget r "id") (rget s "id") then
          rapply r (buildUpdates stationFields cand.fields s ++
            [("updated_at", .str t)]) else r)
        stationFrameKeys :=
      presKeys_updateFun _ _ _
        (pushData_keys_not_mem stationFields cand.fields s t
          stationFrameKeys (by decide))
    cases dry with
    | true =>
        refine ⟨fun r => r, (List.map_id _).symm, rfl, rfl, rfl, rfl,
          presKeys_id _, ?_⟩
        intro m hm
        simp at hm
        subst hm
        rfl
    | false =>
        refine ⟨_, rfl, rfl, rfl, rfl, rfl, hSpres, ?_⟩
        intro m hm
        simp at hm
        subst hm
        rfl

theorem stationStep_dry_db (db : DB) (s : Row) (cand : StationDoc)
    (t : String) : (stationStep db s cand true t).db = db := by
  unfold stationStep
  by_cases hupd : buildUpdates stationFields cand.fields s = []
  · rw [if_pos hupd]
  · rw [if_neg hupd]
    rfl

theorem stationStep_muts_dry_eq (db : DB) (s : Row) (cand : StationDoc)
    (t : String) :
    (stationStep db s cand true t).muts = (stationStep db s cand false t).muts := by
  unfold stationStep
  by_cases hupd : buildUpdates stationFields cand.fields s = []
  · rw [if_pos hupd, if_pos hupd]
  · rw [if_neg hupd, if_neg hupd]
    rfl

theorem push_station_frame (db : DB) (a : String) (cand : StationDoc)
    (dry : Bool) (t : String) :
    ∃ S F G : Row → Row,
      (push_station db a cand dry t).db.stations = db.stations.map S ∧
      (push_station db a cand dry t).db.platforms = db.platforms.map F ∧
      (push_station db a cand dry t).db.instruments = db.instruments.map G ∧
      (push_station db a cand dry t).db.rois = db.rois ∧
      (push_station db a cand dry t).db.nextId = db.nextId ∧
      PresKeys S stationFrameKeys ∧ PresKeys F platFrameKeys ∧
      PresKeys G instFrameKeys ∧
      (∀ c, (push_station db a cand dry t).res = .ok c →
        c.inserted = 0 ∧ c.deleted = 0) := by
  cases hq : query_one db.stations (byKey "acronym" (.str a)) with
  | none =>
      have hred : push_station db a cand dry t =
          ⟨.error ("Station " ++ a ++ " not found"), db, []⟩ := by
        simp [push_station, hq]
      rw [hred]
      refine ⟨fun r => r, fun r => r, fun r => r, ?_, ?_, ?_, ?_, ?_,
        presKeys_id _, presKeys_id _, presKeys_id _, fun c hc => ?_⟩ <;>
        first
          | exact (List.map_id _).symm
          | rfl
          | exact absurd hc (by simp)
  | some s =>
      set st0 : LoopSt := stationStep db s cand dry t with hst0def
      have hred : push_station db a cand dry t =
          (match pushPlatLoop dry t cand.platforms st0 with
           | (st, some e) => ⟨.error e, st.db, st.muts⟩
           | (st, none) => ⟨.ok ⟨st.updated, 0, 0⟩, st.db, st.muts⟩) := by
        rw [hst0def]
        simp only [push_station, hq]
      obtain ⟨S0, hb1, hb2, hb3, hb4, hb5, hb6, hb7⟩ :=
        stationStep_facts db s cand dry t
      rw [← hst0def] at hb1 hb2 hb3 hb4 hb5 hb7
      obtain ⟨F, G, hp1, hp2, hp3, hp4, hp5, hp6, hp7, hp8⟩ :=
        pushPlatLoop_frame dry t cand.platforms st0
      rcases hrun : pushPlatLoop dry t cand.platforms st0 with ⟨st, e?⟩
      have hst : st = (pushPlatLoop dry t cand.platforms st0).1 := by rw [hrun]
      rw [← hst] at hp1 hp2 hp3 hp4 hp5
      cases e? with
      | some e =>
          rw [hred, hrun]
          dsimp only
          refine ⟨S0, F, G, ?_, ?_, ?_, ?_, ?_, hb6, hp6, hp7, fun c hc => ?_⟩
          · rw [hp1, hb1]
          · rw [hp4, hb2]
          · rw [hp5, hb3]
          · rw [hp2, hb4]
          · rw [hp3, hb5]
          · exact absurd hc (by simp)
      | none =>
          rw [hred, hrun]
          dsimp only
          refine ⟨S0, F, G, ?_, ?_, ?_, ?_, ?_, hb6, hp6, hp7, fun c hc => ?_⟩
          · rw [hp1, hb1]
          · rw [hp4, hb2]
          · rw [hp5, hb3]
          · rw [hp2, hb4]
          · rw [hp3, hb5]
          · obtain rfl := Except.ok.inj hc
            exact ⟨rfl, rfl⟩

/-- C1 (amended). Pushing a candidate containing a platform whose
normalized_name has no match executes no insert and no delete: the
platform and instrument tables keep their length, no row with the
unmatched name appears afterwards, the ROI table is untouched, and the
returned summary reports zero inserted and zero deleted. The skipped
entity is not reported anywhere: the summary has no skippedStructural
field (see the counterexample). -/
theorem C1_unmatched_entities_skipped (db : DB) (a : String)
    (cand : StationDoc) (t : String) (nm : Value)
    (hp : query_one db.platforms (byKey "normalized_name" nm) = none) :
    (push_station db a cand false t).db.platforms.length =
      db.platforms.length ∧
    (push_station db a cand false t).db.instruments.length =
      db.instruments.length ∧
    query_one (push_station db a cand false t).db.platforms
      (byKey "normalized_name" nm) = none ∧
    (∀ nmi, query_one db.instruments (byKey "normalized_name" nmi) = none →
      query_one (push_station db a cand false t).db.instruments
        (byKey "normalized_name" nmi) = none) ∧
    (∀ c, (push_station db a cand false t).res = .ok c →
      c.inserted = 0 ∧ c.deleted = 0) ∧
    (push_station db a cand false t).db.rois = db.rois := by
  obtain ⟨S, F, G, h1, h2, h3, h4, h5, h6, h7, h8, h9⟩ :=
    push_station_frame db a cand false t
  refine ⟨by rw [h2]; simp, by rw [h3]; simp, ?_, fun nmi hni => ?_, h9, h4⟩
  · rw [h2]
    exact query_one_none_map _ F _
      (fun r => by
        unfold byKey
        rw [h7 r "normalized_name" (by decide)]) hp
  · rw [h3]
    exact query_one_none_map _ G _
      (fun r => by
        unfold byKey
        rw [h8 r "normalized_name" (by decide)]) hni

/-- Store for the no-silent-creation counterexample: a station with no
platforms at all. -/
def dbC1 : DB := ⟨[[("id", .int 1), ("acronym", .str "SVB")]], [], [], [], 5⟩

/-- Candidate carrying one platform that matches nothing in the store. -/
def candC1 : StationDoc :=
  ⟨[], [⟨[("normalized_name", .str "GHOST"), ("status", .str "Active")], []⟩], []⟩

/-- The same candidate with the unmatched platform removed. -/
def candC1none : StationDoc := ⟨[], [], []⟩

/-- C1. Counterexample: push_station leaves the store unchanged for the
unmatched platform, but nothing is accumulated or reported — the summary
dict is only the updated/inserted/deleted counters (sync_data.py line
107), there is no skippedStructural list, and the outcome is literally
identical to pushing a candidate that never mentioned the entity, so the
caller cannot learn of the skip. -/
theorem C1_counterexample :
    push_station dbC1 "SVB" candC1 false "T" = ⟨.ok ⟨0, 0, 0⟩, dbC1, []⟩ ∧
    push_station dbC1 "SVB" candC1 false "T" =
      push_station dbC1 "SVB" candC1none false "T" :=
  ⟨rfl, rfl⟩

/-- C1 witness: the amended statement at the concrete unmatched-platform
push. -/
theorem C1_unmatched_entities_skipped_w :
    (push_station dbC1 "SVB" candC1 false "T").db.platforms.length =
      dbC1.platforms.length ∧
    query_one (push_station dbC1 "SVB" candC1 false "T").db.platforms
      (byKey "normalized_name" (.str "GHOST")) = none ∧
    (∀ c, (push_station dbC1 "SVB" candC1 false "T").res = .ok c →
      c.inserted = 0 ∧ c.deleted = 0) := by
  have h := C1_unmatched_entities_skipped dbC1 "SVB" candC1 "T"
    (.str "GHOST") rfl
  exact ⟨h.1, h.2.2.1, h.2.2.2.2.1⟩


/-- The platform update dict plus the refreshed timestamp. -/
def platData (lp : PlatDoc) (e : Row) (now : String) : Row :=
  buildUpdates platformFields lp.fields e ++ [("updated_at", .str now)]

/-- The instrument update dict plus the refreshed timestamp. -/
def instData (li : Row) (e : Row) (now : String) : Row :=
  buildUpdates instrumentFields li e ++ [("updated_at", .str now)]

/-- Loop state right after a matched diverging platform is updated. -/
def platStepState (st : LoopSt) (lp : PlatDoc) (e : Row) (now : String) :
    LoopSt :=
  { db := { st.db with
      platforms := rowsUpdate st.db.platforms (rget e "id") (platData lp e now) }
    updated := st.updated + 1
    muts := st.muts ++ [⟨"platforms", rget e "id", platData lp e now⟩] }

/-- Loop state right after a matched diverging instrument is updated. -/
def instStepState (st : LoopSt) (li : Row) (e : Row) (now : String) :
    LoopSt :=
  { db := { st.db with
      instruments := rowsUpdate st.db.instruments (rget e "id") (instData li e now) }
    updated := st.updated + 1
    muts := st.muts ++ [⟨"instruments", rget e "id", instData li e now⟩] }

theorem pushPlatLoop_cons_matched (now : String) (lp : PlatDoc)
    (rest : List PlatDoc) (st : LoopSt) (nm : Value) (e : Row)
    (hnm : rlookup lp.fields "normalized_name" = some nm)
    (hq : query_one st.db.platforms (byKey "normalized_name" nm) = some e)
    (hupd : buildUpdates platformFields lp.fields e ≠ []) :
    pushPlatLoop false now (lp :: rest) st =
      (match pushInstLoop false now (lp.instruments.map InstDoc.fields)
        (platStepState st lp e now) with
       | (st2, some er) => (st2, some er)
       | (st2, none) => pushPlatLoop false now rest st2) := by
  simp [pushPlatLoop, hnm, hq, hupd, platStepState, platData]

theorem pushInstLoop_cons_matched (now : String) (li : Row)
    (rest : List Row) (st : LoopSt) (nm : Value) (e : Row)
    (hnm : rlookup li "normalized_name" = some nm)
    (hq : query_one st.db.instruments (byKey "normalized_name" nm) = some e)
    (hupd : buildUpdates instrumentFields li e ≠ []) :
    pushInstLoop false now (li :: rest) st =
      pushInstLoop false now rest (instStepState st li e now) := by
  simp [pushInstLoop, hnm, hq, hupd, instStepState, instData]

theorem pushInstLoop_muts_append (dry : Bool) (now : String)
    (insts : List Row) (st : LoopSt) :
    ∃ Δ, (pushInstLoop dry now insts st).1.muts = st.muts ++ Δ ∧
      ∀ m ∈ Δ, m.table = "instruments" := by
  induction insts generalizing st with
  | nil => exact ⟨[], by simp [pushInstLoop], by intro m hm; simp at hm⟩
  | cons li rest ih =>
      rcases hlook : rlookup li "normalized_name" with _ | nm
      · refine ⟨[], ?_, by intro m hm; simp at hm⟩
        simp [pushInstLoop, hlook]
      · rcases hq : query_one st.db.instruments (byKey "normalized_name" nm)
          with _ | ex
        · have hred : pushInstLoop dry now (li :: rest) st =
              pushInstLoop dry now rest st := by
            simp [pushInstLoop, hlook, hq]
          rw [hred]
          exact ih st
        · by_cases hupd : buildUpdates instrumentFields li ex = []
          · have hred : pushInstLoop dry now (li :: rest) st =
                pushInstLoop dry now rest st := by
              simp [pushInstLoop, hlook, hq, hupd]
            rw [hred]
            exact ih st
          · cases dry with
            | true =>
                have hred : pushInstLoop true now (li :: rest) st =
                    pushInstLoop true now rest
                      { st with muts := st.muts ++
                        [⟨"instruments", rget ex "id", instData li ex now⟩] } := by
                  simp [pushInstLoop, hlook, hq, hupd, instData]
                rw [hred]
                obtain ⟨Δ, h1, h2⟩ := ih
                  { st with muts := st.muts ++
                    [⟨"instruments", rget ex "id", instData li ex now⟩] }
                refine ⟨(⟨"instruments", rget ex "id",
                  instData li ex now⟩ : Mutation) :: Δ, ?_, fun m hm => ?_⟩
                · rw [h1]
                  simp
                · rcases List.mem_cons.mp hm with h | h
                  · subst h
                    rfl
                  · exact h2 m h
            | false =>
                rw [pushInstLoop_cons_matched now li rest st nm ex hlook hq hupd]
                obtain ⟨Δ, h1, h2⟩ := ih (instStepState st li ex now)
                refine ⟨(⟨"instruments", rget ex "id",
                  instData li ex now⟩ : Mutation) :: Δ, ?_, fun m hm => ?_⟩
                · rw [h1]
                  simp [instStepState]
                · rcases List.mem_cons.mp hm with h | h
                  · subst h
                    rfl
                  · exact h2 m h

theorem filter_platforms_of_all (l : List Mutation) (tbl : String)
    (h : ∀ m ∈ l, m.table = tbl) (htbl : tbl ≠ "platforms") :
    l.filter (fun m => m.table == "platforms") = [] := by
  rw [List.filter_eq_nil_iff]
  intro m hm
  rw [h m hm]
  simpa using htbl

theorem pushData_key_ne (allow : List String) (l e : Row) (now : String)
    (k : String) (hk : k ∉ allow) (hk2 : k ≠ "updated_at") :
    ∀ kv ∈ buildUpdates allow l e ++ [("updated_at", Value.str now)],
      kv.1 ≠ k := by
  intro kv hm he
  have h2 := pushData_keys_not_mem allow l e now [k]
    (by
      intro x hx
      rw [List.mem_singleton] at hx
      subst hx
      exact ⟨hk, hk2⟩) kv hm
  exact h2 (he ▸ List.mem_singleton_self k)

theorem pushData_keys_nodup (allow : List String) (l e : Row) (now : String)
    (hall : allow.Nodup) (hua : "updated_at" ∉ allow) :
    ((buildUpdates allow l e ++ [("updated_at", Value.str now)]).map
      Prod.fst).Nodup := by
  rw [List.map_append]
  refine List.Nodup.append (buildUpdates_keys_nodup allow l e hall)
    (by simp) ?_
  intro x hx hy
  simp only [List.map_cons, List.map_nil, List.mem_singleton] at hy
  subst hy
  rcases List.mem_map.mp hx with ⟨kv, hkv, hfst⟩
  exact hua (hfst ▸ buildUpdates_keys allow l e kv hkv)

theorem platData_key_ne (lp : PlatDoc) (e : Row) (now : String)
    (k : String) (hk : k ∉ platformFields) (hk2 : k ≠ "updated_at") :
    ∀ kv ∈ platData lp e now, kv.1 ≠ k :=
  pushData_key_ne platformFields lp.fields e now k hk hk2

theorem instData_key_ne (li : Row) (e : Row) (now : String)
    (k : String) (hk : k ∉ instrumentFields) (hk2 : k ≠ "updated_at") :
    ∀ kv ∈ instData li e now, kv.1 ≠ k :=
  pushData_key_ne instrumentFields li e now k hk hk2

theorem platData_keys_nodup (lp : PlatDoc) (e : Row) (now : String) :
    ((platData lp e now).map Prod.fst).Nodup :=
  pushData_keys_nodup platformFields lp.fields e now (by decide) (by decide)

theorem instData_keys_nodup (li : Row) (e : Row) (now : String) :
    ((instData li e now).map Prod.fst).Nodup :=
  pushData_keys_nodup instrumentFields li e now (by decide) (by decide)

/-- C10. The push matching for platforms and instruments is global: the
lookup is `WHERE normalized_name = ?` with no station or platform scope
(sync_data.py lines 126-129 and 148-151). If the store holds the pushed
name only under a different parent, push matches that foreign row,
reports and applies the single UPDATE against its id, and afterwards a
row not belonging to the pushed station (resp. not attached to the
matched platform) carries the candidate values. -/
theorem C10_push_matches_globally (db : DB) (a : String) (cand : StationDoc)
    (lp : PlatDoc) (li : InstDoc) (s e ei : Row) (nm nmi : Value) (t : String)
    (hs : query_one db.stations (byKey "acronym" (.str a)) = some s)
    (hplats : cand.platforms = [lp])
    (hinsts : lp.instruments = [li])
    (hnm : rlookup lp.fields "normalized_name" = some nm)
    (he : query_one db.platforms (byKey "normalized_name" nm) = some e)
    (hforeign : rget e "station_id" ≠ rget s "id")
    (hupd : buildUpdates platformFields lp.fields e ≠ [])
    (heid : rget e "id" ≠ Value.null)
    (hnmi : rlookup li.fields "normalized_name" = some nmi)
    (hei : query_one db.instruments (byKey "normalized_name" nmi) = some ei)
    (hiforeign : rget ei "platform_id" ≠ rget e "id")
    (hiupd : buildUpdates instrumentFields li.fields ei ≠ [])
    (heiid : rget ei "id" ≠ Value.null) :
    (⟨"platforms", rget e "id", platData lp e t⟩ : Mutation) ∈
      (push_station db a cand false t).muts ∧
    (⟨"instruments", rget ei "id", instData li.fields ei t⟩ : Mutation) ∈
      (push_station db a cand false t).muts ∧
    (∃ r ∈ (push_station db a cand false t).db.platforms,
      rget r "id" = rget e "id" ∧
      rget r "station_id" ≠ rget s "id" ∧
      ∀ kv ∈ buildUpdates platformFields lp.fields e, rget r kv.1 = kv.2) ∧
    (∃ ri ∈ (push_station db a cand false t).db.instruments,
      rget ri "id" = rget ei "id" ∧
      rget ri "platform_id" ≠ rget e "id" ∧
      ∀ kv ∈ buildUpdates instrumentFields li.fields ei,
        rget ri kv.1 = kv.2) := by
  obtain ⟨S0, hb1, hb2, hb3, hb4, hb5, hb6, hb7⟩ :=
    stationStep_facts db s cand false t
  have hq2 : query_one (stationStep db s cand false t).db.platforms
      (byKey "normalized_name" nm) = some e := by
    rw [hb2]
    exact he
  have hio : (platStepState (stationStep db s cand false t) lp e t).db.instruments =
      db.instruments := hb3
  have hq3 : query_one
      (platStepState (stationStep db s cand false t) lp e t).db.instruments
      (byKey "normalized_name" nmi) = some ei := by
    rw [hio]
    exact hei
  have hredPush : push_station db a cand false t =
      ⟨.ok ⟨(instStepState (platStepState (stationStep db s cand false t) lp e t)
          li.fields ei t).updated, 0, 0⟩,
        (instStepState (platStepState (stationStep db s cand false t) lp e t)
          li.fields ei t).db,
        (instStepState (platStepState (stationStep db s cand false t) lp e t)
          li.fields ei t).muts⟩ := by
    have h1 : push_station db a cand false t =
        (match pushPlatLoop false t cand.platforms
          (stationStep db s cand false t) with
         | (st, some er) => ⟨.error er, st.db, st.muts⟩
         | (st, none) => ⟨.ok ⟨st.updated, 0, 0⟩, st.db, st.muts⟩) := by
      simp only [push_station, hs]
    rw [h1, hplats,
      pushPlatLoop_cons_matched t lp [] (stationStep db s cand false t)
        nm e hnm hq2 hupd, hinsts]
    simp only [List.map_cons, List.map_nil]
    rw [pushInstLoop_cons_matched t li.fields []
      (platStepState (stationStep db s cand false t) lp e t) nmi ei hnmi
      hq3 hiupd]
    simp only [pushInstLoop, pushPlatLoop]
  rw [hredPush]
  obtain ⟨heMem, hePred⟩ := query_one_mem db.platforms _ e he
  obtain ⟨heiMem, heiPred⟩ := query_one_mem db.instruments _ ei hei
  refine ⟨?_, ?_, ?_, ?_⟩
  · simp [instStepState, platStepState, List.mem_append]
  · simp [instStepState, platStepState, List.mem_append]
  · refine ⟨rapply e (platData lp e t), ?_, ?_, ?_, ?_⟩
    · show rapply e (platData lp e t) ∈
        (rowsUpdate (stationStep db s cand false t).db.platforms
          (rget e "id") (platData lp e t))
      rw [hb2]
      unfold rowsUpdate
      have hmm := List.mem_map_of_mem
        (fun r => if sqlEq (rget r "id") (rget e "id") then
          rapply r (platData lp e t) else r) heMem
      dsimp only at hmm
      rw [if_pos (sqlEq_self _ heid)] at hmm
      exact hmm
    · exact rget_rapply_not_mem (platData lp e t) e "id"
        (platData_key_ne lp e t "id" (by decide) (by decide))
    · rw [rget_rapply_not_mem (platData lp e t) e "station_id"
        (platData_key_ne lp e t "station_id" (by decide) (by decide))]
      exact hforeign
    · intro kv hkv
      exact rget_rapply_mem (platData lp e t) e kv
        (platData_keys_nodup lp e t) (List.mem_append_left _ hkv)
  · refine ⟨rapply ei (instData li.fields ei t), ?_, ?_, ?_, ?_⟩
    · show rapply ei (instData li.fields ei t) ∈
        (rowsUpdate
          (platStepState (stationStep db s cand false t) lp e t).db.instruments
          (rget ei "id") (instData li.fields ei t))
      rw [hio]
      unfold rowsUpdate
      have hmm := List.mem_map_of_mem
        (fun r => if sqlEq (rget r "id") (rget ei "id") then
          rapply r (instData li.fields ei t) else r) heiMem
      dsimp only at hmm
      rw [if_pos (sqlEq_self _ heiid)] at hmm
      exact hmm
    · exact rget_rapply_not_mem (instData li.fields ei t) ei "id"
        (instData_key_ne li.fields ei t "id" (by decide) (by decide))
    · rw [rget_rapply_not_mem (instData li.fields ei t) ei "platform_id"
        (instData_key_ne li.fields ei t "platform_id" (by decide) (by decide))]
      exact hiforeign
    · intro kv hkv
      exact rget_rapply_mem (instData li.fields ei t) ei kv
        (instData_keys_nodup li.fields ei t) (List.mem_append_left _ hkv)

/-- Station rows for the cross-parent matching scenario. -/
def sC10 : Row := [("id", .int 1), ("acronym", .str "AAA")]

/-- A platform named P that belongs to station 2, not to station 1. -/
def eC10 : Row :=
  [("id", .int 7), ("station_id", .int 2), ("normalized_name", .str "P"),
   ("status", .str "Active")]

/-- An instrument named N attached to platform 99, not to platform 7. -/
def eiC10 : Row :=
  [("id", .int 9), ("platform_id", .int 99), ("normalized_name", .str "N"),
   ("status", .str "Old")]

def liC10 : InstDoc :=
  ⟨[("normalized_name", .str "N"), ("status", .str "New")], []⟩

def lpC10 : PlatDoc :=
  ⟨[("normalized_name", .str "P"), ("status", .str "Inactive")], [liC10]⟩

def candC10 : StationDoc := ⟨[], [lpC10], []⟩

def dbC10 : DB :=
  ⟨[sC10, [("id", .int 2), ("acronym", .str "BBB")]], [eC10], [eiC10], [], 50⟩

/-- C10 witness: pushing station AAA updates the platform of station BBB
and an instrument attached to neither. -/
theorem C10_push_matches_globally_w :
    (⟨"platforms", rget eC10 "id", platData lpC10 eC10 "T"⟩ : Mutation) ∈
      (push_station dbC10 "AAA" candC10 false "T").muts ∧
    (⟨"instruments", rget eiC10 "id", instData liC10.fields eiC10 "T"⟩ :
      Mutation) ∈ (push_station dbC10 "AAA" candC10 false "T").muts ∧
    (∃ r ∈ (push_station dbC10 "AAA" candC10 false "T").db.platforms,
      rget r "id" = rget eC10 "id" ∧
      rget r "station_id" ≠ rget sC10 "id" ∧
      ∀ kv ∈ buildUpdates platformFields lpC10.fields eC10,
        rget r kv.1 = kv.2) ∧
    (∃ ri ∈ (push_station dbC10 "AAA" candC10 false "T").db.instruments,
      rget ri "id" = rget eiC10 "id" ∧
      rget ri "platform_id" ≠ rget eC10 "id" ∧
      ∀ kv ∈ buildUpdates instrumentFields liC10.fields eiC10,
        rget ri kv.1 = kv.2) :=
  C10_push_matches_globally dbC10 "AAA" candC10 lpC10 liC10 sC10 eC10 eiC10
    (.str "P") (.str "N") "T" rfl rfl rfl rfl rfl (by decide) (by decide)
    (by decide) rfl rfl (by decide) (by decide) (by decide)

/-- C8. For a matched platform with a non-empty field diff, a real push
issues exactly one UPDATE statement against the platforms table, and its
SET dict is precisely the divergent allow-listed fields (each present in
the candidate with a value differing from the live row) plus the
refreshed updated_at — never one statement per field
(sync_data.py lines 131-144, d1_client.py update). -/
theorem C8_one_update_per_entity (db : DB) (a : String) (cand : StationDoc)
    (lp : PlatDoc) (s e : Row) (nm : Value) (t : String)
    (hs : query_one db.stations (byKey "acronym" (.str a)) = some s)
    (hplats : cand.platforms = [lp])
    (hnm : rlookup lp.fields "normalized_name" = some nm)
    (he : query_one db.platforms (byKey "normalized_name" nm) = some e)
    (hupd : buildUpdates platformFields lp.fields e ≠ []) :
    ((push_station db a cand false t).muts.filter
      (fun m => m.table == "platforms")) =
      [⟨"platforms", rget e "id", platData lp e t⟩] ∧
    (∀ f v, (f, v) ∈ buildUpdates platformFields lp.fields e ↔
      (f ∈ platformFields ∧ rlookup lp.fields f = some v ∧ v ≠ rget e f)) ∧
    ("updated_at", Value.str t) ∈ platData lp e t := by
  obtain ⟨S0, hb1, hb2, hb3, hb4, hb5, hb6, hb7⟩ :=
    stationStep_facts db s cand false t
  have hq2 : query_one (stationStep db s cand false t).db.platforms
      (byKey "normalized_name" nm) = some e := by
    rw [hb2]
    exact he
  have hred1 : push_station db a cand false t =
      (match (match pushInstLoop false t (lp.instruments.map InstDoc.fields)
        (platStepState (stationStep db s cand false t) lp e t) with
         | (st2, some er) => (st2, some er)
         | (st2, none) => pushPlatLoop false t [] st2) with
       | (st, some er) => ⟨.error er, st.db, st.muts⟩
       | (st, none) => ⟨.ok ⟨st.updated, 0, 0⟩, st.db, st.muts⟩) := by
    conv =>
      lhs
      simp only [push_station, hs]
    rw [hplats, pushPlatLoop_cons_matched t lp []
      (stationStep db s cand false t) nm e hnm hq2 hupd]
  obtain ⟨Δ, hΔ, hΔt⟩ := pushInstLoop_muts_append false t
    (lp.instruments.map InstDoc.fields)
    (platStepState (stationStep db s cand false t) lp e t)
  rcases hrun : pushInstLoop false t (lp.instruments.map InstDoc.fields)
    (platStepState (stationStep db s cand false t) lp e t) with ⟨st2, eopt⟩
  rw [hrun] at hred1 hΔ
  dsimp only at hΔ
  have hmuts : st2.muts = ((stationStep db s cand false t).muts ++
      [⟨"platforms", rget e "id", platData lp e t⟩]) ++ Δ := by
    rw [hΔ]
    rfl
  have hfilter : (st2.muts.filter (fun m => m.table == "platforms")) =
      [⟨"platforms", rget e "id", platData lp e t⟩] := by
    rw [hmuts, List.filter_append, List.filter_append]
    rw [filter_platforms_of_all _ "stations" hb7 (by decide)]
    rw [filter_platforms_of_all Δ "instruments" hΔt (by decide)]
    simp
  refine ⟨?_, fun f v => mem_buildUpdates platformFields lp.fields e f v,
    by simp [platData]⟩
  cases eopt with
  | some er =>
      rw [hred1]
      exact hfilter
  | none =>
      rw [hred1]
      simp only [pushPlatLoop]
      exact hfilter

/-- C8 witness: the single-update statement at a concrete push. -/
theorem C8_one_update_per_entity_w :
    ((push_station dbC10 "AAA" candC10 false "T").muts.filter
      (fun m => m.table == "platforms")) =
      [⟨"platforms", rget eC10 "id", platData lpC10 eC10 "T"⟩] ∧
    ("updated_at", Value.str "T") ∈ platData lpC10 eC10 "T" := by
  have h := C8_one_update_per_entity dbC10 "AAA" candC10 lpC10 sC10 eC10
    (.str "P") "T" rfl rfl rfl rfl (by decide)
  exact ⟨h.1, h.2.2⟩

/-- Final value of a matched instrument row after its push step. -/
def applyInst (now : String) (li e : Row) : Row :=
  if buildUpdates instrumentFields li e = [] then e
  else rapply e (instData li e now)

/-- Final value of a matched platform row after its push step. -/
def applyPlat (now : String) (lp : PlatDoc) (e : Row) : Row :=
  if buildUpdates platformFields lp.fields e = [] then e
  else rapply e (platData lp e now)

theorem byKey_pres (F : Row → Row) (ks : List String) (k : String)
    (v : Value) (hk : k ∈ ks) (hF : PresKeys F ks) (r : Row) :
    byKey k v (F r) = byKey k v r := by
  unfold byKey
  rw [hF r k hk]

theorem ids_sqlEq_false_of_ne (I0 : List Row)
    (hids : (I0.map (fun r => rget r "id")).Nodup) (e1 e2 : Row)
    (he1 : e1 ∈ I0) (he2 : e2 ∈ I0) (hne : e1 ≠ e2) :
    sqlEq (rget e1 "id") (rget e2 "id") = false := by
  by_cases h : sqlEq (rget e1 "id") (rget e2 "id") = true
  · obtain ⟨heq, _, _⟩ := (sqlEq_true_iff _ _).mp h
    exact absurd (List.inj_on_of_nodup_map hids he1 he2 heq) hne
  · exact Bool.eq_false_iff.mpr h

theorem match_rows_ne (I0 : List Row) (k : String) (nm1 nm2 : Value)
    (e1 e2 : Row)
    (hq1 : query_one I0 (byKey k nm1) = some e1)
    (hq2 : query_one I0 (byKey k nm2) = some e2)
    (hnm : nm1 ≠ nm2) : e1 ≠ e2 := by
  obtain ⟨_, hp1⟩ := query_one_mem I0 _ e1 hq1
  obtain ⟨_, hp2⟩ := query_one_mem I0 _ e2 hq2
  obtain ⟨hv1, _, _⟩ := (sqlEq_true_iff _ _).mp hp1
  obtain ⟨hv2, _, _⟩ := (sqlEq_true_iff _ _).mp hp2
  intro h
  subst h
  exact hnm (hv1 ▸ hv2 ▸ rfl)

theorem noNameMatch_ne (I0 : List Row) (k : String) (nm : Value) (e e2 : Row)
    (hq : query_one I0 (byKey k nm) = some e)
    (hno : sqlEq (rget e2 k) nm = false) : e2 ≠ e := by
  obtain ⟨_, hp⟩ := query_one_mem I0 _ e hq
  intro h
  subst h
  unfold byKey at hp
  rw [hp] at hno
  exact Bool.true_eq_false.mp hno

/-- Parallel characterization of the instrument loop: a dry run and a
real run over the same candidate list, started from the same logical
store (the real side seen through an update map G that fixes every row
the list will match), report the same statements in the same order,
stop at the same point, and the real side applies exactly those
statements. -/
theorem pushInstLoop_parallel (now : String) (insts : List Row)
    (I0 : List Row) (G : Row → Row) (stD stR : LoopSt)
    (hD : stD.db.instruments = I0)
    (hR : stR.db.instruments = I0.map G)
    (hG : PresKeys G instFrameKeys)
    (hGfix : ∀ li ∈ insts, ∀ nm, rlookup li "normalized_name" = some nm →
      ∀ e, query_one I0 (byKey "normalized_name" nm) = some e → G e = e)
    (hids : (I0.map (fun r => rget r "id")).Nodup)
    (hnn : ∀ r ∈ I0, rget r "id" ≠ Value.null)
    (hnames : (insts.map (fun li => rlookup li "normalized_name")).Nodup) :
    ∃ Δ G2 err,
      pushInstLoop true now insts stD =
        ({ stD with muts := stD.muts ++ Δ }, err) ∧
      (pushInstLoop false now insts stR).2 = err ∧
      (pushInstLoop false now insts stR).1.muts = stR.muts ++ Δ ∧
      (pushInstLoop false now insts stR).1.db.instruments = I0.map G2 ∧
      (pushInstLoop false now insts stR).1.db.stations = stR.db.stations ∧
      (pushInstLoop false now insts stR).1.db.platforms = stR.db.platforms ∧
      (pushInstLoop false now insts stR).1.db.rois = stR.db.rois ∧
      (pushInstLoop false now insts stR).1.db.nextId = stR.db.nextId ∧
      PresKeys G2 instFrameKeys ∧
      (∀ e ∈ I0, (∀ li ∈ insts, ∀ nm, rlookup li "normalized_name" = some nm →
        sqlEq (rget e "normalized_name") nm = false) → G2 e = G e) ∧
      ((∀ li ∈ insts, (rlookup li "normalized_name").isSome) → err = none) ∧
      (err = none → ∀ li ∈ insts, ∀ nm, rlookup li "normalized_name" = some nm →
        ∀ e, query_one I0 (byKey "normalized_name" nm) = some e →
          G2 e = applyInst now li e) := by
  induction insts generalizing G stD stR with
  | nil =>
      refine ⟨[], G, none, by simp [pushInstLoop], ?_, ?_, ?_, rfl, rfl, rfl,
        rfl, hG, fun e hm hc => rfl, fun hk => rfl, fun he li hm =>
          absurd hm (by simp)⟩
      · simp [pushInstLoop]
      · simp [pushInstLoop]
      · simpa [pushInstLoop] using hR
  | cons li rest ih =>
      have hnamesTail := (List.nodup_cons.mp hnames).2
      have hnameHead := (List.nodup_cons.mp hnames).1
      rcases hlook : rlookup li "normalized_name" with _ | nm
      · have hredD : pushInstLoop true now (li :: rest) stD =
            (stD, some "KeyError: 'normalized_name'") := by
          simp [pushInstLoop, hlook]
        have hredR : pushInstLoop false now (li :: rest) stR =
            (stR, some "KeyError: 'normalized_name'") := by
          simp [pushInstLoop, hlook]
        refine ⟨[], G, some "KeyError: 'normalized_name'", ?_, ?_, ?_, ?_,
          ?_, ?_, ?_, ?_, hG, fun e hm hc => rfl, fun hk => ?_,
          fun he => absurd he (by simp)⟩
        · rw [hredD]
          simp
        · rw [hredR]
        · rw [hredR]
          simp
        · rw [hredR]
          exact hR
        · rw [hredR]
        · rw [hredR]
        · rw [hredR]
        · rw [hredR]
        · exact absurd (hk li (by simp)) (by simp [hlook])
      · have hbk : ∀ r, byKey "normalized_name" nm (G r) =
            byKey "normalized_name" nm r :=
          byKey_pres G instFrameKeys "normalized_name" nm (by decide) hG
        rcases hqI : query_one I0 (byKey "normalized_name" nm) with _ | exD
        · have hqD : query_one stD.db.instruments
              (byKey "normalized_name" nm) = none := by
            rw [hD]
            exact hqI
          have hqR : query_one stR.db.instruments
              (byKey "normalized_name" nm) = none := by
            rw [hR, query_one_map_pres _ _ _ hbk, hqI]
            rfl
          have hredD : pushInstLoop true now (li :: rest) stD =
              pushInstLoop true now rest stD := by
            simp [pushInstLoop, hlook, hqD]
          have hredR : pushInstLoop false now (li :: rest) stR =
              pushInstLoop false now rest stR := by
            simp [pushInstLoop, hlook, hqR]
          rw [hredD, hredR]
          obtain ⟨Δ, G2, err, c1, c2, c3, c4, c5, c6, c7, c8, c9, c10, c11,
            c12⟩ := ih G stD stR hD hR hG
            (fun li2 hm nm2 h2 e hq => hGfix li2 (by simp [hm]) nm2 h2 e hq)
            hnamesTail
          refine ⟨Δ, G2, err, c1, c2, c3, c4, c5, c6, c7, c8, c9, ?_, ?_, ?_⟩
          · exact fun e hm hc => c10 e hm
              (fun li2 hm2 nm2 h2 => hc li2 (by simp [hm2]) nm2 h2)
          · exact fun hk => c11 (fun li2 hm2 => hk li2 (by simp [hm2]))
          · intro he li2 hm2 nm2 h2 e hq
            rcases List.mem_cons.mp hm2 with h | h
            · subst h
              rw [hlook] at h2
              obtain rfl := Option.some.inj h2
              rw [hqI] at hq
              exact absurd hq (by simp)
            · exact c12 he li2 h nm2 h2 e hq
        · obtain ⟨hexDMem, hexDPred⟩ := query_one_mem I0 _ exD hqI
          have hGexD : G exD = exD :=
            hGfix li (by simp) nm hlook exD hqI
          have hqD : query_one stD.db.instruments
              (byKey "normalized_name" nm) = some exD := by
            rw [hD]
            exact hqI
          have hqR : query_one stR.db.instruments
              (byKey "normalized_name" nm) = some exD := by
            rw [hR, query_one_map_pres _ _ _ hbk, hqI]
            simp [hGexD]
          have hexDName : rget exD "normalized_name" = nm :=
            ((sqlEq_true_iff _ _).mp hexDPred).1
          have hHeadNotInTail : (some nm : Option Value) ∉
              rest.map (fun li3 => rlookup li3 "normalized_name") := by
            dsimp only at hnameHead
            rw [hlook] at hnameHead
            exact hnameHead
          have hTailNe : ∀ li2 ∈ rest, ∀ nm2,
              rlookup li2 "normalized_name" = some nm2 → nm2 ≠ nm := by
            intro li2 hm2 nm2 h2 hcontra
            subst hcontra
            refine hHeadNotInTail ?_
            rw [← h2]
            exact List.mem_map_of_mem _ hm2
          have hRestNoMatch : ∀ li2 ∈ rest, ∀ nm2,
              rlookup li2 "normalized_name" = some nm2 →
              sqlEq (rget exD "normalized_name") nm2 = false := by
            intro li2 hm2 nm2 h2
            by_cases hsq : sqlEq (rget exD "normalized_name") nm2 = true
            · obtain ⟨heq, _, _⟩ := (sqlEq_true_iff _ _).mp hsq
              rw [hexDName] at heq
              exact absurd heq.symm (hTailNe li2 hm2 nm2 h2)
            · exact Bool.eq_false_iff.mpr hsq
          by_cases hupd : buildUpdates instrumentFields li exD = []
          · have hredD : pushInstLoop true now (li :: rest) stD =
                pushInstLoop true now rest stD := by
              simp [pushInstLoop, hlook, hqD, hupd]
            have hredR : pushInstLoop false now (li :: rest) stR =
                pushInstLoop false now rest stR := by
              simp [pushInstLoop, hlook, hqR, hupd]
            rw [hredD, hredR]
            obtain ⟨Δ, G2, err, c1, c2, c3, c4, c5, c6, c7, c8, c9, c10, c11,
              c12⟩ := ih G stD stR hD hR hG
              (fun li2 hm nm2 h2 e hq => hGfix li2 (by simp [hm]) nm2 h2 e hq)
              hnamesTail
            refine ⟨Δ, G2, err, c1, c2, c3, c4, c5, c6, c7, c8, c9, ?_, ?_, ?_⟩
            · exact fun e hm hc => c10 e hm
                (fun li2 hm2 nm2 h2 => hc li2 (by simp [hm2]) nm2 h2)
            · exact fun hk => c11 (fun li2 hm2 => hk li2 (by simp [hm2]))
            · intro he li2 hm2 nm2 h2 e hq
              rcases List.mem_cons.mp hm2 with h | h
              · subst h
                rw [hlook] at h2
                obtain rfl := Option.some.inj h2
                rw [hqI] at hq
                have heq2 : e = exD := (Option.some.inj hq).symm
                subst heq2
                have hfix2 := c10 e hexDMem hRestNoMatch
                rw [hfix2, hGexD, applyInst, if_pos hupd]
              · exact c12 he li2 h nm2 h2 e hq
          · have hredD : pushInstLoop true now (li :: rest) stD =
                pushInstLoop true now rest
                  { stD with muts := stD.muts ++
                    [⟨"instruments", rget exD "id", instData li exD now⟩] } := by
              simp [pushInstLoop, hlook, hqD, hupd, instData]
            have hredR : pushInstLoop false now (li :: rest) stR =
                pushInstLoop false now rest (instStepState stR li exD now) :=
              pushInstLoop_cons_matched now li rest stR nm exD hlook hqR hupd
            rw [hredD, hredR]
            have hids2 : ∀ e2 ∈ I0, e2 ≠ exD →
                sqlEq (rget (G e2) "id") (rget exD "id") = false := by
              intro e2 hm2 hne
              rw [hG e2 "id" (by decide)]
              exact ids_sqlEq_false_of_ne I0 hids e2 exD hm2 hexDMem hne
            obtain ⟨Δ, G2, err, c1, c2, c3, c4, c5, c6, c7, c8, c9, c10, c11,
              c12⟩ := ih
              (fun r => if sqlEq (rget (G r) "id") (rget exD "id") then
                rapply (G r) (instData li exD now) else G r)
              { stD with muts := stD.muts ++
                [⟨"instruments", rget exD "id", instData li exD now⟩] }
              (instStepState stR li exD now)
              hD
              (by
                show rowsUpdate stR.db.instruments (rget exD "id")
                  (instData li exD now) = _
                rw [hR]
                unfold rowsUpdate
                rw [List.map_map]
                rfl)
              (presKeys_comp G _ instFrameKeys hG
                (presKeys_updateFun (rget exD "id") (instData li exD now)
                  instFrameKeys
                  (fun kv hkv => pushData_keys_not_mem instrumentFields li exD
                    now instFrameKeys (by decide) kv hkv)))
              (by
                intro li2 hm2 nm2 h2 e hq
                have hfix := hGfix li2 (by simp [hm2]) nm2 h2 e hq
                have hne : e ≠ exD := match_rows_ne I0 "normalized_name" nm2 nm
                  e exD hq hqI (hTailNe li2 hm2 nm2 h2)
                have hfalse : sqlEq (rget (G e) "id") (rget exD "id") = false :=
                  hids2 e (query_one_mem I0 _ e hq).1 hne
                dsimp only
                rw [if_neg (by simp [hfalse])]
                exact hfix)
              hnamesTail
            refine ⟨(⟨"instruments", rget exD "id", instData li exD now⟩ :
              Mutation) :: Δ, G2, err, ?_, c2, ?_, c4, ?_, ?_, ?_, ?_, c9,
              ?_, ?_, ?_⟩
            · rw [c1]
              simp
            · rw [c3]
              simp [instStepState]
            · exact c5
            · exact c6
            · exact c7
            · exact c8
            · intro e hm hc
              have h1 := c10 e hm
                (fun li2 hm2 nm2 h2 => hc li2 (by simp [hm2]) nm2 h2)
              rw [h1]
              have hne : e ≠ exD := noNameMatch_ne I0 "normalized_name" nm exD
                e hqI (hc li (by simp) nm hlook)
              have hfalse := hids2 e hm hne
              rw [if_neg (by simp [hfalse])]
            · exact fun hk => c11 (fun li2 hm2 => hk li2 (by simp [hm2]))
            · intro he li2 hm2 nm2 h2 e hq
              rcases List.mem_cons.mp hm2 with h | h
              · subst h
                rw [hlook] at h2
                obtain rfl := Option.some.inj h2
                rw [hqI] at hq
                obtain rfl := Option.some.inj hq
                have hfix2 := c10 exD hexDMem hRestNoMatch
                rw [hfix2]
                rw [hGexD, if_pos (sqlEq_self _ (hnn exD hexDMem))]
                rw [applyInst, if_neg hupd]
              · exact c12 he li2 h nm2 h2 e hq

theorem sqlEq_false_of_ne (a b : Value) (h : a ≠ b) : sqlEq a b = false := by
  by_cases hsq : sqlEq a b = true
  · obtain ⟨heq, _, _⟩ := (sqlEq_true_iff _ _).mp hsq
    exact absurd heq h
  · exact Bool.eq_false_iff.mpr hsq

/-- Parallel dry/real execution of the platform loop of push_station:
relative to base tables P0 (platforms) and I0 (instruments) with the real
store holding P0.map F and I0.map G, both runs report the same mutation
list and error, the real run evolves the two tables by per-row maps that
preserve the frame columns, and on a clean run every matched platform
or instrument row ends at its applyPlat/applyInst value. -/
theorem pushPlatLoop_parallel (now : String) (plats : List PlatDoc)
    (P0 I0 : List Row) (F G : Row → Row) (stD stR : LoopSt)
    (hDP : stD.db.platforms = P0)
    (hDI : stD.db.instruments = I0)
    (hRP : stR.db.platforms = P0.map F)
    (hRI : stR.db.instruments = I0.map G)
    (hF : PresKeys F platFrameKeys)
    (hG : PresKeys G instFrameKeys)
    (hFfix : ∀ lp ∈ plats, ∀ nm,
      rlookup lp.fields "normalized_name" = some nm →
      ∀ e, query_one P0 (byKey "normalized_name" nm) = some e → F e = e)
    (hGfix : ∀ lp ∈ plats, ∀ li ∈ lp.instruments.map InstDoc.fields, ∀ nm,
      rlookup li "normalized_name" = some nm →
      ∀ e, query_one I0 (byKey "normalized_name" nm) = some e → G e = e)
    (hidsP : (P0.map (fun r => rget r "id")).Nodup)
    (hnnP : ∀ r ∈ P0, rget r "id" ≠ Value.null)
    (hidsI : (I0.map (fun r => rget r "id")).Nodup)
    (hnnI : ∀ r ∈ I0, rget r "id" ≠ Value.null)
    (hnamesP :
      (plats.map (fun lp => rlookup lp.fields "normalized_name")).Nodup)
    (hnamesI :
      ((plats.flatMap (fun lp => lp.instruments.map InstDoc.fields)).map
        (fun li => rlookup li "normalized_name")).Nodup) :
    ∃ Δ F2 G2 err,
      pushPlatLoop true now plats stD =
        ({ stD with muts := stD.muts ++ Δ }, err) ∧
      (pushPlatLoop false now plats stR).2 = err ∧
      (pushPlatLoop false now plats stR).1.muts = stR.muts ++ Δ ∧
      (pushPlatLoop false now plats stR).1.db.platforms = P0.map F2 ∧
      (pushPlatLoop false now plats stR).1.db.instruments = I0.map G2 ∧
      (pushPlatLoop false now plats stR).1.db.stations = stR.db.stations ∧
      (pushPlatLoop false now plats stR).1.db.rois = stR.db.rois ∧
      (pushPlatLoop false now plats stR).1.db.nextId = stR.db.nextId ∧
      PresKeys F2 platFrameKeys ∧ PresKeys G2 instFrameKeys ∧
      (∀ e ∈ P0, (∀ lp ∈ plats, ∀ nm,
        rlookup lp.fields "normalized_name" = some nm →
        sqlEq (rget e "normalized_name") nm = false) → F2 e = F e) ∧
      (∀ e ∈ I0,
        (∀ li ∈ plats.flatMap (fun lp => lp.instruments.map InstDoc.fields),
          ∀ nm, rlookup li "normalized_name" = some nm →
          sqlEq (rget e "normalized_name") nm = false) → G2 e = G e) ∧
      ((∀ lp ∈ plats, (rlookup lp.fields "normalized_name").isSome ∧
        ∀ li ∈ lp.instruments.map InstDoc.fields,
          (rlookup li "normalized_name").isSome) → err = none) ∧
      (err = none → ∀ lp ∈ plats, ∀ nm,
        rlookup lp.fields "normalized_name" = some nm →
        ∀ e, query_one P0 (byKey "normalized_name" nm) = some e →
          F2 e = applyPlat now lp e) ∧
      (err = none → ∀ lp ∈ plats, ∀ nm,
        rlookup lp.fields "normalized_name" = some nm →
        (query_one P0 (byKey "normalized_name" nm)).isSome →
        ∀ li ∈ lp.instruments.map InstDoc.fields, ∀ nmi,
          rlookup li "normalized_name" = some nmi →
          ∀ e, query_one I0 (byKey "normalized_name" nmi) = some e →
            G2 e = applyInst now li e) := by
  induction plats generalizing F G stD stR with
  | nil =>
      refine ⟨[], F, G, none, by simp [pushPlatLoop], ?_, ?_, ?_, ?_, rfl,
        rfl, rfl, hF, hG, fun e hm hc => rfl, fun e hm hc => rfl,
        fun hk => rfl, fun he lp hm => absurd hm (by simp),
        fun he lp hm => absurd hm (by simp)⟩
      · simp [pushPlatLoop]
      · simp [pushPlatLoop]
      · simpa [pushPlatLoop] using hRP
      · simpa [pushPlatLoop] using hRI
  | cons lp rest ih =>
      have hnamesPTail := (List.nodup_cons.mp hnamesP).2
      have hnamePHead := (List.nodup_cons.mp hnamesP).1
      have hflat : ((lp :: rest).flatMap
            (fun lp2 => lp2.instruments.map InstDoc.fields)).map
            (fun li => rlookup li "normalized_name") =
          (lp.instruments.map InstDoc.fields).map
            (fun li => rlookup li "normalized_name") ++
          (rest.flatMap (fun lp2 => lp2.instruments.map InstDoc.fields)).map
            (fun li => rlookup li "normalized_name") := by
        simp
      rw [hflat] at hnamesI
      obtain ⟨hnIHead, hnITail, hnIDisj⟩ := List.nodup_append.mp hnamesI
      rcases hlook : rlookup lp.fields "normalized_name" with _ | nm
      · have hredD : pushPlatLoop true now (lp :: rest) stD =
            (stD, some "KeyError: 'normalized_name'") := by
          simp [pushPlatLoop, hlook]
        have hredR : pushPlatLoop false now (lp :: rest) stR =
            (stR, some "KeyError: 'normalized_name'") := by
          simp [pushPlatLoop, hlook]
        refine ⟨[], F, G, some "KeyError: 'normalized_name'", ?_, ?_, ?_, ?_,
          ?_, ?_, ?_, ?_, hF, hG, fun e hm hc => rfl, fun e hm hc => rfl,
          fun hk => ?_, fun he => absurd he (by simp),
          fun he => absurd he (by simp)⟩
        · rw [hredD]
          simp
        · rw [hredR]
        · rw [hredR]
          simp
        · rw [hredR]
          exact hRP
        · rw [hredR]
          exact hRI
        · rw [hredR]
        · rw [hredR]
        · rw [hredR]
        · exact absurd (hk lp (by simp)).1 (by simp [hlook])
      · have hbkP : ∀ r, byKey "normalized_name" nm (F r) =
            byKey "normalized_name" nm r :=
          byKey_pres F platFrameKeys "normalized_name" nm (by decide) hF
        rcases hqP : query_one P0 (byKey "normalized_name" nm) with _ | exP
        · have hqPD : query_one stD.db.platforms
              (byKey "normalized_name" nm) = none := by
            rw [hDP]
            exact hqP
          have hqPR : query_one stR.db.platforms
              (byKey "normalized_name" nm) = none := by
            rw [hRP, query_one_map_pres _ _ _ hbkP, hqP]
            rfl
          have hredD : pushPlatLoop true now (lp :: rest) stD =
              pushPlatLoop true now rest stD := by
            simp [pushPlatLoop, hlook, hqPD]
          have hredR : pushPlatLoop false now (lp :: rest) stR =
              pushPlatLoop false now rest stR := by
            simp [pushPlatLoop, hlook, hqPR]
          rw [hredD, hredR]
          obtain ⟨Δ, F2, G2, err, c1, c2, c3, c4, c5, c6, c7, c8, c9, c10,
            c11, c12, c13, c14, c15⟩ := ih F G stD stR hDP hDI hRP hRI hF hG
            (fun lp2 hm nm2 h2 e hq => hFfix lp2 (by simp [hm]) nm2 h2 e hq)
            (fun lp2 hm li hli nm2 h2 e hq =>
              hGfix lp2 (by simp [hm]) li hli nm2 h2 e hq)
            hnamesPTail hnITail
          refine ⟨Δ, F2, G2, err, c1, c2, c3, c4, c5, c6, c7, c8, c9, c10,
            ?_, ?_, ?_, ?_, ?_⟩
          · exact fun e hm hc => c11 e hm
              (fun lp2 hm2 nm2 h2 => hc lp2 (by simp [hm2]) nm2 h2)
          · exact fun e hm hc => c12 e hm
              (fun li hli nm2 h2 => hc li (by simp [hli]) nm2 h2)
          · exact fun hk => c13 (fun lp2 hm2 => hk lp2 (by simp [hm2]))
          · intro he lp2 hm2 nm2 h2 e hq
            rcases List.mem_cons.mp hm2 with h | h
            · subst h
              rw [hlook] at h2
              obtain rfl := Option.some.inj h2
              rw [hqP] at hq
              exact absurd hq (by simp)
            · exact c14 he lp2 h nm2 h2 e hq
          · intro he lp2 hm2 nm2 h2 hqs li hli nmi hi e hq
            rcases List.mem_cons.mp hm2 with h | h
            · subst h
              rw [hlook] at h2
              obtain rfl := Option.some.inj h2
              rw [hqP] at hqs
              exact absurd hqs (by simp)
            · exact c15 he lp2 h nm2 h2 hqs li hli nmi hi e hq
        · obtain ⟨hexPMem, hexPPred⟩ := query_one_mem P0 _ exP hqP
          have hFexP : F exP = exP := hFfix lp (by simp) nm hlook exP hqP
          have hqPD : query_one stD.db.platforms
              (byKey "normalized_name" nm) = some exP := by
            rw [hDP]
            exact hqP
          have hqPR : query_one stR.db.platforms
              (byKey "normalized_name" nm) = some exP := by
            rw [hRP, query_one_map_pres _ _ _ hbkP, hqP]
            simp [hFexP]
          have hexPName : rget exP "normalized_name" = nm :=
            ((sqlEq_true_iff _ _).mp hexPPred).1
          have hHeadNotInTailP : (some nm : Option Value) ∉
              rest.map (fun lp2 => rlookup lp2.fields "normalized_name") := by
            dsimp only at hnamePHead
            rw [hlook] at hnamePHead
            exact hnamePHead
          have hTailNeP : ∀ lp2 ∈ rest, ∀ nm2,
              rlookup lp2.fields "normalized_name" = some nm2 → nm2 ≠ nm := by
            intro lp2 hm2 nm2 h2 hcontra
            subst hcontra
            refine hHeadNotInTailP ?_
            rw [← h2]
            exact List.mem_map_of_mem _ hm2
          have hRestNoMatchP : ∀ lp2 ∈ rest, ∀ nm2,
              rlookup lp2.fields "normalized_name" = some nm2 →
              sqlEq (rget exP "normalized_name") nm2 = false := by
            intro lp2 hm2 nm2 h2
            rw [hexPName]
            exact sqlEq_false_of_ne nm nm2
              (fun hcon => hTailNeP lp2 hm2 nm2 h2 hcon.symm)
          have hInstTailNe : ∀ li2 ∈ rest.flatMap
                (fun lp2 => lp2.instruments.map InstDoc.fields), ∀ nmi2,
              rlookup li2 "normalized_name" = some nmi2 →
              ∀ li ∈ lp.instruments.map InstDoc.fields, ∀ nmi,
                rlookup li "normalized_name" = some nmi → nmi2 ≠ nmi := by
            intro li2 hm2 nmi2 h2 li hli nmi hi hcontra
            subst hcontra
            have hmem1 : rlookup li "normalized_name" ∈
                (lp.instruments.map InstDoc.fields).map
                  (fun li3 => rlookup li3 "normalized_name") :=
              List.mem_map_of_mem _ hli
            have hmem2 : rlookup li2 "normalized_name" ∈
                (rest.flatMap
                  (fun lp2 => lp2.instruments.map InstDoc.fields)).map
                  (fun li3 => rlookup li3 "normalized_name") :=
              List.mem_map_of_mem _ hm2
            rw [hi] at hmem1
            rw [h2] at hmem2
            exact hnIDisj hmem1 hmem2
          by_cases hupd : buildUpdates platformFields lp.fields exP = []
          · have hredD : pushPlatLoop true now (lp :: rest) stD =
                (match pushInstLoop true now
                  (lp.instruments.map InstDoc.fields) stD with
                 | (st2, some er) => (st2, some er)
                 | (st2, none) => pushPlatLoop true now rest st2) := by
              simp [pushPlatLoop, hlook, hqPD, hupd]
            have hredR : pushPlatLoop false now (lp :: rest) stR =
                (match pushInstLoop false now
                  (lp.instruments.map InstDoc.fields) stR with
                 | (st2, some er) => (st2, some er)
                 | (st2, none) => pushPlatLoop false now rest st2) := by
              simp [pushPlatLoop, hlook, hqPR, hupd]
            obtain ⟨Δi, G2i, erri, i1, i2, i3, i4, i5, i6, i7, i8, i9, i10,
              i11, i12⟩ := pushInstLoop_parallel now
              (lp.instruments.map InstDoc.fields) I0 G stD stR hDI hRI hG
              (fun li hli nmi hi e hq => hGfix lp (by simp) li hli nmi hi e hq)
              hidsI hnnI hnIHead
            rcases hpi : pushInstLoop false now
              (lp.instruments.map InstDoc.fields) stR with ⟨st2R, errR⟩
            rw [hpi] at i2 i3 i4 i5 i6 i7 i8
            dsimp only at i2 i3 i4 i5 i6 i7 i8
            subst i2
            cases errR with
            | some er =>
                rw [hredD, hredR, i1, hpi]
                dsimp only
                refine ⟨Δi, F, G2i, some er, rfl, rfl, i3, i6.trans hRP, i4,
                  i5, i7, i8, hF, i9, fun e hm hc => rfl, ?_, ?_, ?_, ?_⟩
                · exact fun e hm hc => i10 e hm (fun li hli nmi hi =>
                    hc li (by
                      simp only [List.flatMap_cons, List.mem_append]
                      exact Or.inl hli) nmi hi)
                · exact fun hk => absurd
                    (i11 (fun li hli => (hk lp (by simp)).2 li hli)) (by simp)
                · exact fun he => absurd he (by simp)
                · exact fun he => absurd he (by simp)
            | none =>
                obtain ⟨Δ2, F2, G2, err, d1, d2, d3, d4, d5, d6, d7, d8, d9,
                  d10, d11, d12, d13, d14, d15⟩ := ih F G2i
                  { stD with muts := stD.muts ++ Δi } st2R
                  hDP hDI (i6.trans hRP) i4 hF i9
                  (fun lp2 hm nm2 h2 e hq =>
                    hFfix lp2 (by simp [hm]) nm2 h2 e hq)
                  (by
                    intro lp2 hm li2 hli2 nmi2 h2 e hq
                    have hfixG := hGfix lp2 (by simp [hm]) li2 hli2 nmi2 h2 e hq
                    have heName : rget e "normalized_name" = nmi2 :=
                      ((sqlEq_true_iff _ _).mp (query_one_mem I0 _ e hq).2).1
                    have hclean : ∀ li ∈ lp.instruments.map InstDoc.fields,
                        ∀ nmi, rlookup li "normalized_name" = some nmi →
                        sqlEq (rget e "normalized_name") nmi = false := by
                      intro li hli nmi hi
                      rw [heName]
                      exact sqlEq_false_of_ne nmi2 nmi
                        (hInstTailNe li2 (List.mem_flatMap.mpr ⟨lp2, hm, hli2⟩)
                          nmi2 h2 li hli nmi hi)
                    rw [i10 e (query_one_mem I0 _ e hq).1 hclean]
                    exact hfixG)
                  hnamesPTail hnITail
                rw [hredD, hredR, i1, hpi]
                dsimp only
                refine ⟨Δi ++ Δ2, F2, G2, err, ?_, d2, ?_, d4, d5,
                  d6.trans i5, d7.trans i7, d8.trans i8, d9, d10, ?_, ?_, ?_,
                  ?_, ?_⟩
                · rw [d1]
                  simp
                · rw [d3, i3]
                  simp
                · exact fun e hm hc => d11 e hm
                    (fun lp2 hm2 nm2 h2 => hc lp2 (by simp [hm2]) nm2 h2)
                · intro e hm hc
                  refine (d12 e hm (fun li2 hli2 nmi2 h2 =>
                    hc li2 (by
                      simp only [List.flatMap_cons, List.mem_append]
                      exact Or.inr hli2) nmi2 h2)).trans
                    (i10 e hm (fun li hli nmi hi =>
                      hc li (by
                        simp only [List.flatMap_cons, List.mem_append]
                        exact Or.inl hli) nmi hi))
                · exact fun hk => d13 (fun lp2 hm2 => hk lp2 (by simp [hm2]))
                · intro he lp2 hm2 nm2 h2 e hq
                  rcases List.mem_cons.mp hm2 with h | h
                  · subst h
                    rw [hlook] at h2
                    obtain rfl := Option.some.inj h2
                    rw [hqP] at hq
                    obtain rfl := Option.some.inj hq
                    have h1 := d11 exP hexPMem hRestNoMatchP
                    rw [h1, hFexP, applyPlat, if_pos hupd]
                  · exact d14 he lp2 h nm2 h2 e hq
                · intro he lp2 hm2 nm2 h2 hqs li hli nmi hi e hq
                  rcases List.mem_cons.mp hm2 with h | h
                  · subst h
                    have heName : rget e "normalized_name" = nmi :=
                      ((sqlEq_true_iff _ _).mp (query_one_mem I0 _ e hq).2).1
                    have h1 := d12 e (query_one_mem I0 _ e hq).1 (by
                      intro li2 hli2 nmi2 h2b
                      rw [heName]
                      exact sqlEq_false_of_ne nmi nmi2
                        (fun hcon => hInstTailNe li2 hli2 nmi2 h2b li hli nmi
                          hi hcon.symm))
                    exact h1.trans (i12 rfl li hli nmi hi e hq)
                  · exact d15 he lp2 h nm2 h2 hqs li hli nmi hi e hq
          · have hredD : pushPlatLoop true now (lp :: rest) stD =
                (match pushInstLoop true now
                  (lp.instruments.map InstDoc.fields)
                  { stD with muts := stD.muts ++
                    [⟨"platforms", rget exP "id", platData lp exP now⟩] } with
                 | (st2, some er) => (st2, some er)
                 | (st2, none) => pushPlatLoop true now rest st2) := by
              simp [pushPlatLoop, hlook, hqPD, hupd, platData]
            have hredR := pushPlatLoop_cons_matched now lp rest stR nm exP
              hlook hqPR hupd
            have hids2P : ∀ e2 ∈ P0, e2 ≠ exP →
                sqlEq (rget (F e2) "id") (rget exP "id") = false := by
              intro e2 hm2 hne
              rw [hF e2 "id" (by decide)]
              exact ids_sqlEq_false_of_ne P0 hidsP e2 exP hm2 hexPMem hne
            have hRP1 : (platStepState stR lp exP now).db.platforms =
                P0.map (fun r =>
                  if sqlEq (rget (F r) "id") (rget exP "id") then
                    rapply (F r) (platData lp exP now) else F r) := by
              show rowsUpdate stR.db.platforms (rget exP "id")
                (platData lp exP now) = _
              rw [hRP]
              unfold rowsUpdate
              rw [List.map_map]
              rfl
            have hPF' : PresKeys (fun r =>
                if sqlEq (rget (F r) "id") (rget exP "id") then
                  rapply (F r) (platData lp exP now) else F r) platFrameKeys :=
              presKeys_comp F _ platFrameKeys hF
                (presKeys_updateFun (rget exP "id") (platData lp exP now)
                  platFrameKeys
                  (fun kv hkv => pushData_keys_not_mem platformFields lp.fields
                    exP now platFrameKeys (by decide) kv hkv))
            obtain ⟨Δi, G2i, erri, i1, i2, i3, i4, i5, i6, i7, i8, i9, i10,
              i11, i12⟩ := pushInstLoop_parallel now
              (lp.instruments.map InstDoc.fields) I0 G
              { stD with muts := stD.muts ++
                [⟨"platforms", rget exP "id", platData lp exP now⟩] }
              (platStepState stR lp exP now)
              hDI hRI hG
              (fun li hli nmi hi e hq => hGfix lp (by simp) li hli nmi hi e hq)
              hidsI hnnI hnIHead
            rcases hpi : pushInstLoop false now
              (lp.instruments.map InstDoc.fields)
              (platStepState stR lp exP now) with ⟨st2R, errR⟩
            rw [hpi] at i2 i3 i4 i5 i6 i7 i8
            dsimp only at i2 i3 i4 i5 i6 i7 i8
            subst i2
            cases errR with
            | some er =>
                rw [hredD, hredR, i1, hpi]
                dsimp only
                refine ⟨(⟨"platforms", rget exP "id", platData lp exP now⟩ :
                  Mutation) :: Δi, _, G2i, some er, ?_, rfl, ?_,
                  i6.trans hRP1, i4, i5, i7, i8, hPF', i9, ?_, ?_, ?_, ?_,
                  ?_⟩
                · simp
                · rw [i3]
                  simp [platStepState]
                · intro e hm hc
                  have hne : e ≠ exP := noNameMatch_ne P0 "normalized_name"
                    nm exP e hqP (hc lp (by simp) nm hlook)
                  have hfalse := hids2P e hm hne
                  rw [if_neg (by simp [hfalse])]
                · exact fun e hm hc => i10 e hm (fun li hli nmi hi =>
                    hc li (by
                      simp only [List.flatMap_cons, List.mem_append]
                      exact Or.inl hli) nmi hi)
                · exact fun hk => absurd
                    (i11 (fun li hli => (hk lp (by simp)).2 li hli)) (by simp)
                · exact fun he => absurd he (by simp)
                · exact fun he => absurd he (by simp)
            | none =>
                obtain ⟨Δ2, F2, G2, err, d1, d2, d3, d4, d5, d6, d7, d8, d9,
                  d10, d11, d12, d13, d14, d15⟩ := ih
                  (fun r =>
                    if sqlEq (rget (F r) "id") (rget exP "id") then
                      rapply (F r) (platData lp exP now) else F r)
                  G2i
                  { { stD with muts := stD.muts ++
                      [(⟨"platforms", rget exP "id", platData lp exP now⟩ :
                        Mutation)] }
                    with muts := { stD with muts := stD.muts ++
                      [(⟨"platforms", rget exP "id", platData lp exP now⟩ :
                        Mutation)] }.muts ++ Δi }
                  st2R
                  hDP hDI (i6.trans hRP1) i4 hPF' i9
                  (by
                    intro lp2 hm nm2 h2 e hq
                    have hfix := hFfix lp2 (by simp [hm]) nm2 h2 e hq
                    have hne : e ≠ exP := match_rows_ne P0 "normalized_name"
                      nm2 nm e exP hq hqP (hTailNeP lp2 hm nm2 h2)
                    have hfalse := hids2P e (query_one_mem P0 _ e hq).1 hne
                    dsimp only
                    rw [if_neg (by simp [hfalse])]
                    exact hfix)
                  (by
                    intro lp2 hm li2 hli2 nmi2 h2 e hq
                    have hfixG := hGfix lp2 (by simp [hm]) li2 hli2 nmi2 h2
                      e hq
                    have heName : rget e "normalized_name" = nmi2 :=
                      ((sqlEq_true_iff _ _).mp (query_one_mem I0 _ e hq).2).1
                    have hclean : ∀ li ∈ lp.instruments.map InstDoc.fields,
                        ∀ nmi, rlookup li "normalized_name" = some nmi →
                        sqlEq (rget e "normalized_name") nmi = false := by
                      intro li hli nmi hi
                      rw [heName]
                      exact sqlEq_false_of_ne nmi2 nmi
                        (hInstTailNe li2 (List.mem_flatMap.mpr ⟨lp2, hm, hli2⟩)
                          nmi2 h2 li hli nmi hi)
                    rw [i10 e (query_one_mem I0 _ e hq).1 hclean]
                    exact hfixG)
                  hnamesPTail hnITail
                rw [hredD, hredR, i1, hpi]
                dsimp only
                refine ⟨(⟨"platforms", rget exP "id", platData lp exP now⟩ :
                  Mutation) :: (Δi ++ Δ2), F2, G2, err, ?_, d2, ?_, d4, d5,
                  d6.trans i5, d7.trans i7, d8.trans i8, d9, d10, ?_, ?_, ?_,
                  ?_, ?_⟩
                · rw [d1]
                  simp
                · rw [d3, i3]
                  simp [platStepState]
                · intro e hm hc
                  have h1 := d11 e hm
                    (fun lp2 hm2 nm2 h2 => hc lp2 (by simp [hm2]) nm2 h2)
                  rw [h1]
                  have hne : e ≠ exP := noNameMatch_ne P0 "normalized_name"
                    nm exP e hqP (hc lp (by simp) nm hlook)
                  have hfalse := hids2P e hm hne
                  rw [if_neg (by simp [hfalse])]
                · intro e hm hc
                  refine (d12 e hm (fun li2 hli2 nmi2 h2 =>
                    hc li2 (by
                      simp only [List.flatMap_cons, List.mem_append]
                      exact Or.inr hli2) nmi2 h2)).trans
                    (i10 e hm (fun li hli nmi hi =>
                      hc li (by
                        simp only [List.flatMap_cons, List.mem_append]
                        exact Or.inl hli) nmi hi))
                · exact fun hk => d13 (fun lp2 hm2 => hk lp2 (by simp [hm2]))
                · intro he lp2 hm2 nm2 h2 e hq
                  rcases List.mem_cons.mp hm2 with h | h
                  · subst h
                    rw [hlook] at h2
                    obtain rfl := Option.some.inj h2
                    rw [hqP] at hq
                    obtain rfl := Option.some.inj hq
                    have h1 := d11 exP hexPMem hRestNoMatchP
                    rw [h1]
                    rw [hFexP, if_pos (sqlEq_self _ (hnnP exP hexPMem))]
                    rw [applyPlat, if_neg hupd]
                  · exact d14 he lp2 h nm2 h2 e hq
                · intro he lp2 hm2 nm2 h2 hqs li hli nmi hi e hq
                  rcases List.mem_cons.mp hm2 with h | h
                  · subst h
                    have heName : rget e "normalized_name" = nmi :=
                      ((sqlEq_true_iff _ _).mp (query_one_mem I0 _ e hq).2).1
                    have h1 := d12 e (query_one_mem I0 _ e hq).1 (by
                      intro li2 hli2 nmi2 h2b
                      rw [heName]
                      exact sqlEq_false_of_ne nmi nmi2
                        (fun hcon => hInstTailNe li2 hli2 nmi2 h2b li hli nmi
                          hi hcon.symm))
                    exact h1.trans (i12 rfl li hli nmi hi e hq)
                  · exact d15 he lp2 h nm2 h2 hqs li hli nmi hi e hq

theorem pushInstLoop_dry_db (now : String) (insts : List Row) (st : LoopSt) :
    (pushInstLoop true now insts st).1.db = st.db := by
  induction insts generalizing st with
  | nil => simp [pushInstLoop]
  | cons li rest ih =>
      rcases hlook : rlookup li "normalized_name" with _ | nm
      · simp [pushInstLoop, hlook]
      · rcases hq : query_one st.db.instruments (byKey "normalized_name" nm)
          with _ | ex
        · have hred : pushInstLoop true now (li :: rest) st =
              pushInstLoop true now rest st := by
            simp [pushInstLoop, hlook, hq]
          rw [hred]
          exact ih st
        · by_cases hupd : buildUpdates instrumentFields li ex = []
          · have hred : pushInstLoop true now (li :: rest) st =
                pushInstLoop true now rest st := by
              simp [pushInstLoop, hlook, hq, hupd]
            rw [hred]
            exact ih st
          · have hred : pushInstLoop true now (li :: rest) st =
                pushInstLoop true now rest { st with muts := st.muts ++
                  [⟨"instruments", rget ex "id", instData li ex now⟩] } := by
              simp [pushInstLoop, hlook, hq, hupd, instData]
            rw [hred]
            exact ih _

theorem pushPlatLoop_dry_db (now : String) (plats : List PlatDoc)
    (st : LoopSt) : (pushPlatLoop true now plats st).1.db = st.db := by
  induction plats generalizing st with
  | nil => simp [pushPlatLoop]
  | cons lp rest ih =>
      rcases hlook : rlookup lp.fields "normalized_name" with _ | nm
      · simp [pushPlatLoop, hlook]
      · rcases hq : query_one st.db.platforms (byKey "normalized_name" nm)
          with _ | ex
        · have hred : pushPlatLoop true now (lp :: rest) st =
              pushPlatLoop true now rest st := by
            simp [pushPlatLoop, hlook, hq]
          rw [hred]
          exact ih st
        · by_cases hupd : buildUpdates platformFields lp.fields ex = []
          · have hred : pushPlatLoop true now (lp :: rest) st =
                (match pushInstLoop true now
                  (lp.instruments.map InstDoc.fields) st with
                 | (st2, some er) => (st2, some er)
                 | (st2, none) => pushPlatLoop true now rest st2) := by
              simp [pushPlatLoop, hlook, hq, hupd]
            rw [hred]
            rcases hpi : pushInstLoop true now
              (lp.instruments.map InstDoc.fields) st with ⟨st2, err2⟩
            have hdb2 : st2.db = st.db := by
              rw [show st2 = (pushInstLoop true now
                (lp.instruments.map InstDoc.fields) st).1 from by rw [hpi]]
              exact pushInstLoop_dry_db now _ st
            cases err2 with
            | some er => exact hdb2
            | none => exact (ih st2).trans hdb2
          · have hred : pushPlatLoop true now (lp :: rest) st =
                (match pushInstLoop true now
                  (lp.instruments.map InstDoc.fields)
                  { st with muts := st.muts ++
                    [⟨"platforms", rget ex "id", platData lp ex now⟩] } with
                 | (st2, some er) => (st2, some er)
                 | (st2, none) => pushPlatLoop true now rest st2) := by
              simp [pushPlatLoop, hlook, hq, hupd, platData]
            rw [hred]
            rcases hpi : pushInstLoop true now
              (lp.instruments.map InstDoc.fields)
              { st with muts := st.muts ++
                [⟨"platforms", rget ex "id", platData lp ex now⟩] }
              with ⟨st2, err2⟩
            have hdb2 : st2.db = st.db := by
              rw [show st2 = (pushInstLoop true now
                (lp.instruments.map InstDoc.fields)
                { st with muts := st.muts ++
                  [⟨"platforms", rget ex "id", platData lp ex now⟩] }).1
                from by rw [hpi]]
              exact pushInstLoop_dry_db now _ _
            cases err2 with
            | some er => exact hdb2
            | none => exact (ih st2).trans hdb2

theorem push_station_dry_db (db : DB) (a : String) (cand : StationDoc)
    (t : String) : (push_station db a cand true t).db = db := by
  cases hq : query_one db.stations (byKey "acronym" (.str a)) with
  | none => simp [push_station, hq]
  | some s =>
      have hred : push_station db a cand true t =
          (match pushPlatLoop true t cand.platforms
            (stationStep db s cand true t) with
           | (st, some e) => ⟨.error e, st.db, st.muts⟩
           | (st, none) => ⟨.ok ⟨st.updated, 0, 0⟩, st.db, st.muts⟩) := by
        simp only [push_station, hq]
      rw [hred]
      rcases hpl : pushPlatLoop true t cand.platforms
        (stationStep db s cand true t) with ⟨st, e?⟩
      have hdb : st.db = db := by
        rw [show st = (pushPlatLoop true t cand.platforms
          (stationStep db s cand true t)).1 from by rw [hpl]]
        rw [pushPlatLoop_dry_db, stationStep_dry_db]
      cases e? with
      | some e => exact hdb
      | none => exact hdb

theorem rget_applyUpd (allow : List String) (l e : Row) (t : String)
    (f : String) (hf : f ∈ allow) (hts : "updated_at" ∉ allow)
    (hnd : allow.Nodup) (v : Value) (hv : rlookup l f = some v) :
    rget (if buildUpdates allow l e = [] then e
      else rapply e (buildUpdates allow l e ++ [("updated_at", Value.str t)]))
      f = v := by
  by_cases hupd : buildUpdates allow l e = []
  · rw [if_pos hupd]
    exact buildUpdates_empty_agree allow l e hupd f v hf hv
  · rw [if_neg hupd]
    have hfts : f ≠ "updated_at" := fun hc => hts (hc ▸ hf)
    by_cases hveq : v = rget e f
    · have hnotk : ∀ kv ∈ buildUpdates allow l e ++
          [("updated_at", Value.str t)], kv.1 ≠ f := by
        intro kv hm
        rcases List.mem_append.mp hm with h | h
        · intro hc
          rcases kv with ⟨k1, v1⟩
          obtain ⟨_, hl1, hne1⟩ :=
            (mem_buildUpdates allow l e k1 v1).mp h
          subst hc
          rw [hv] at hl1
          obtain rfl := Option.some.inj hl1
          exact hne1 hveq
        · obtain rfl := List.mem_singleton.mp h
          exact fun hc => hfts hc.symm
      rw [rget_rapply_not_mem _ _ _ hnotk]
      exact hveq.symm
    · have hmem : (f, v) ∈ buildUpdates allow l e ++
          [("updated_at", Value.str t)] :=
        List.mem_append.mpr (Or.inl
          ((mem_buildUpdates allow l e f v).mpr ⟨hf, hv, hveq⟩))
      have hnd2 : ((buildUpdates allow l e ++
          [("updated_at", Value.str t)]).map Prod.fst).Nodup := by
        rw [List.map_append]
        refine List.Nodup.append (buildUpdates_keys_nodup allow l e hnd)
          (by simp) ?_
        intro a ha hb
        simp at hb
        subst hb
        rcases List.mem_map.mp ha with ⟨kv, hkv, hfst⟩
        exact hts (hfst ▸ buildUpdates_keys allow l e kv hkv)
      exact rget_rapply_mem _ e (f, v) hnd2 hmem

theorem rget_applyPlat (t : String) (lp : PlatDoc) (e : Row) (f : String)
    (hf : f ∈ platformFields) (v : Value)
    (hv : rlookup lp.fields f = some v) :
    rget (applyPlat t lp e) f = v :=
  rget_applyUpd platformFields lp.fields e t f hf (by decide) (by decide) v hv

theorem rget_applyInst (t : String) (li : Row) (e : Row) (f : String)
    (hf : f ∈ instrumentFields) (v : Value) (hv : rlookup li f = some v) :
    rget (applyInst t li e) f = v :=
  rget_applyUpd instrumentFields li e t f hf (by decide) (by decide) v hv

/-- Store for the dry-run counterexample: one station, two platforms, and
one instrument named N living under platform A. -/
def dbC4 : DB :=
  ⟨[[("id", .int 1), ("acronym", .str "S")]],
   [[("id", .int 1), ("normalized_name", .str "A"), ("station_id", .int 1)],
    [("id", .int 2), ("normalized_name", .str "B"), ("station_id", .int 1)]],
   [[("id", .int 5), ("normalized_name", .str "N"), ("platform_id", .int 1),
     ("status", .str "Z"), ("description", .str "D0")]],
   [], 9⟩

/-- Candidate that lists an instrument named N under both platforms, with
diverging field sets; each occurrence matches the same live row because
the push matches by normalized_name alone. -/
def candC4 : StationDoc :=
  ⟨[],
   [⟨[("normalized_name", .str "A")],
     [⟨[("normalized_name", .str "N"), ("status", .str "X")], []⟩]⟩,
    ⟨[("normalized_name", .str "B")],
     [⟨[("normalized_name", .str "N"), ("status", .str "X"),
        ("description", .str "D1")], []⟩]⟩],
   []⟩

/-- C4. Counterexample: the dry run executes nothing, but the mutation
list it reports is not what the same push applies for real. The second
occurrence of instrument N diffs against the un-updated row under dry
run (reporting a two-field SET) and against the already-updated row
under a real run (applying a one-field SET), so the reported and applied
mutation sets differ. -/
theorem C4_counterexample :
    (push_station dbC4 "S" candC4 true "T").db = dbC4 ∧
    (push_station dbC4 "S" candC4 true "T").muts ≠
      (push_station dbC4 "S" candC4 false "T").muts ∧
    (⟨"instruments", .int 5, [("description", .str "D1"),
      ("status", .str "X"), ("updated_at", .str "T")]⟩ : Mutation) ∈
      (push_station dbC4 "S" candC4 true "T").muts ∧
    (⟨"instruments", .int 5, [("description", .str "D1"),
      ("status", .str "X"), ("updated_at", .str "T")]⟩ : Mutation) ∉
      (push_station dbC4 "S" candC4 false "T").muts :=
  ⟨rfl, by decide, by decide, by decide⟩

/-- C4 (amended). A dry-run push never changes the store, regardless of
how many field divergences exist; and when the candidate's platform
names are pairwise distinct, its instrument names are pairwise distinct
across the whole document, and the store's platform and instrument ids
are pairwise distinct and non-null, the mutation list the dry run
reports is exactly the list a real push with the same candidate against
the same store applies. Without the name-uniqueness hypotheses the
reported and applied lists can differ (see the counterexample). -/
theorem C4_dry_run_no_op (db : DB) (a : String) (cand : StationDoc)
    (t : String)
    (hidsP : (db.platforms.map (fun r => rget r "id")).Nodup)
    (hnnP : ∀ r ∈ db.platforms, rget r "id" ≠ Value.null)
    (hidsI : (db.instruments.map (fun r => rget r "id")).Nodup)
    (hnnI : ∀ r ∈ db.instruments, rget r "id" ≠ Value.null)
    (hnamesP : (cand.platforms.map
      (fun lp => rlookup lp.fields "normalized_name")).Nodup)
    (hnamesI : ((cand.platforms.flatMap
      (fun lp => lp.instruments.map InstDoc.fields)).map
      (fun li => rlookup li "normalized_name")).Nodup) :
    (push_station db a cand true t).db = db ∧
    (push_station db a cand true t).muts =
      (push_station db a cand false t).muts := by
  refine ⟨push_station_dry_db db a cand t, ?_⟩
  cases hq : query_one db.stations (byKey "acronym" (.str a)) with
  | none => simp [push_station, hq]
  | some s =>
      obtain ⟨S0, hb1, hb2, hb3, hb4, hb5, hb6, hb7⟩ :=
        stationStep_facts db s cand false t
      obtain ⟨Δ, F2, G2, err, c1, c2, c3, c4, c5, c6, c7, c8, c9, c10, c11,
        c12, c13, c14, c15⟩ := pushPlatLoop_parallel t cand.platforms
        db.platforms db.instruments (fun r => r) (fun r => r)
        (stationStep db s cand true t) (stationStep db s cand false t)
        (by rw [stationStep_dry_db]) (by rw [stationStep_dry_db])
        (by rw [hb2]; simp) (by rw [hb3]; simp)
        (presKeys_id _) (presKeys_id _)
        (fun _ _ _ _ _ _ => rfl) (fun _ _ _ _ _ _ _ _ => rfl)
        hidsP hnnP hidsI hnnI hnamesP hnamesI
      have hmuts0 := stationStep_muts_dry_eq db s cand t
      have hredDry : push_station db a cand true t =
          (match pushPlatLoop true t cand.platforms
            (stationStep db s cand true t) with
           | (st, some e) => ⟨.error e, st.db, st.muts⟩
           | (st, none) => ⟨.ok ⟨st.updated, 0, 0⟩, st.db, st.muts⟩) := by
        simp only [push_station, hq]
      have hredReal : push_station db a cand false t =
          (match pushPlatLoop false t cand.platforms
            (stationStep db s cand false t) with
           | (st, some e) => ⟨.error e, st.db, st.muts⟩
           | (st, none) => ⟨.ok ⟨st.updated, 0, 0⟩, st.db, st.muts⟩) := by
        simp only [push_station, hq]
      rcases hpr : pushPlatLoop false t cand.platforms
        (stationStep db s cand false t) with ⟨stRf, errR⟩
      rw [hpr] at c2 c3
      dsimp only at c2 c3
      subst c2
      rw [hredDry, hredReal, c1, hpr]
      cases errR with
      | some e =>
          dsimp only
          rw [c3, hmuts0]
      | none =>
          dsimp only
          rw [c3, hmuts0]

/-- Candidate with globally distinct names, for the dry-run witness. -/
def candC4w : StationDoc :=
  ⟨[],
   [⟨[("normalized_name", .str "A")],
     [⟨[("normalized_name", .str "N"), ("status", .str "X")], []⟩]⟩],
   []⟩

/-- C4 witness: the amended statement at a concrete store and candidate
satisfying the uniqueness hypotheses. -/
theorem C4_dry_run_no_op_w :
    (push_station dbC4 "S" candC4w true "T").db = dbC4 ∧
    (push_station dbC4 "S" candC4w true "T").muts =
      (push_station dbC4 "S" candC4w false "T").muts :=
  C4_dry_run_no_op dbC4 "S" candC4w "T" (by decide) (by decide) (by decide)
    (by decide) (by decide) (by decide)

/-- Store for the push-pull counterexample: two stations whose platforms
share the normalized_name P; S2's copy comes first in the table. -/
def dbC2 : DB :=
  ⟨[[("id", .int 1), ("acronym", .str "S1")],
    [("id", .int 2), ("acronym", .str "S2")]],
   [[("id", .int 7), ("normalized_name", .str "P"), ("station_id", .int 2),
     ("status", .str "Old")],
    [("id", .int 8), ("normalized_name", .str "P"), ("station_id", .int 1),
     ("status", .str "Old")]],
   [], [], 9⟩

/-- Candidate for S1 that only flips the allow-listed status field of its
matched platform P. -/
def candC2 : StationDoc :=
  ⟨[], [⟨[("normalized_name", .str "P"), ("status", .str "New")], []⟩], []⟩

/-- C2. Counterexample: push matches platform P by normalized_name alone
with no station scoping, so pushing S1's candidate updates S2's row
(id 7); assembling S1 afterwards still shows status Old, not the
candidate's New, although the push reported one successful update. -/
theorem C2_counterexample :
    (push_station dbC2 "S1" candC2 false "T").res = .ok ⟨1, 0, 0⟩ ∧
    (push_station dbC2 "S1" candC2 false "T").db.platforms =
      [[("id", .int 7), ("normalized_name", .str "P"),
        ("station_id", .int 2), ("status", .str "New"),
        ("updated_at", .str "T")],
       [("id", .int 8), ("normalized_name", .str "P"),
        ("station_id", .int 1), ("status", .str "Old")]] ∧
    pull_station (push_station dbC2 "S1" candC2 false "T").db "S1" "T2" =
      .ok ⟨[("id", .int 1), ("acronym", .str "S1")],
        [⟨[("id", .int 8), ("normalized_name", .str "P"),
           ("station_id", .int 1), ("status", .str "Old")], []⟩],
        [("pulled_at", .str "T2"), ("source", .str "cloudflare_d1")]⟩ :=
  ⟨rfl, rfl, rfl⟩

/-- C2 (amended). When every matched row actually belongs to the pushed
station (platform rows carry the station's id, instrument rows carry
their platform's id), platform and instrument names are unique, ids are
distinct and non-null, and every candidate entity carries its
normalized_name, then push followed by pull converges: the assembled
document contains, for every matched platform and instrument, exactly
its applyPlat/applyInst row, whose allow-listed fields equal the
candidate's values wherever the candidate sets them. Without the
locality hypotheses the global name matching can update a row of a
different station and the round trip diverges (see the
counterexample). -/
theorem C2_push_pull_convergence (db : DB) (a : String) (cand : StationDoc)
    (t t2 : String) (s : Row)
    (hq : query_one db.stations (byKey "acronym" (.str a)) = some s)
    (hsid : rget s "id" ≠ Value.null)
    (hidsP : (db.platforms.map (fun r => rget r "id")).Nodup)
    (hnnP : ∀ r ∈ db.platforms, rget r "id" ≠ Value.null)
    (hidsI : (db.instruments.map (fun r => rget r "id")).Nodup)
    (hnnI : ∀ r ∈ db.instruments, rget r "id" ≠ Value.null)
    (hnamesP : (cand.platforms.map
      (fun lp => rlookup lp.fields "normalized_name")).Nodup)
    (hnamesI : ((cand.platforms.flatMap
      (fun lp => lp.instruments.map InstDoc.fields)).map
      (fun li => rlookup li "normalized_name")).Nodup)
    (hkeys : ∀ lp ∈ cand.platforms,
      (rlookup lp.fields "normalized_name").isSome ∧
      ∀ li ∈ lp.instruments.map InstDoc.fields,
        (rlookup li "normalized_name").isSome) :
    ∃ doc,
      pull_station (push_station db a cand false t).db a t2 = .ok doc ∧
      (∀ lp ∈ cand.platforms, ∀ nm,
        rlookup lp.fields "normalized_name" = some nm →
        ∀ e, query_one db.platforms (byKey "normalized_name" nm) = some e →
        rget e "station_id" = rget s "id" →
          ∃ p ∈ doc.platforms, p.fields = applyPlat t lp e ∧
            ∀ f ∈ platformFields, ∀ v, rlookup lp.fields f = some v →
              rget p.fields f = v) ∧
      (∀ lp ∈ cand.platforms, ∀ nm,
        rlookup lp.fields "normalized_name" = some nm →
        ∀ e, query_one db.platforms (byKey "normalized_name" nm) = some e →
        rget e "station_id" = rget s "id" →
        ∀ li ∈ lp.instruments.map InstDoc.fields, ∀ nmi,
          rlookup li "normalized_name" = some nmi →
          ∀ ei, query_one db.instruments (byKey "normalized_name" nmi) =
            some ei →
          rget ei "platform_id" = rget e "id" →
            ∃ p ∈ doc.platforms, ∃ qd ∈ p.instruments,
              qd.fields = applyInst t li ei ∧
              ∀ f ∈ instrumentFields, ∀ v, rlookup li f = some v →
                rget qd.fields f = v) := by
  obtain ⟨S0, hb1, hb2, hb3, hb4, hb5, hb6, hb7⟩ :=
    stationStep_facts db s cand false t
  obtain ⟨Δ, F2, G2, err, c1, c2, c3, c4, c5, c6, c7, c8, c9, c10, c11,
    c12, c13, c14, c15⟩ := pushPlatLoop_parallel t cand.platforms
    db.platforms db.instruments (fun r => r) (fun r => r)
    (stationStep db s cand true t) (stationStep db s cand false t)
    (by rw [stationStep_dry_db]) (by rw [stationStep_dry_db])
    (by rw [hb2]; simp) (by rw [hb3]; simp)
    (presKeys_id _) (presKeys_id _)
    (fun _ _ _ _ _ _ => rfl) (fun _ _ _ _ _ _ _ _ => rfl)
    hidsP hnnP hidsI hnnI hnamesP hnamesI
  have herr : err = none := c13 hkeys
  subst herr
  rcases hpr : pushPlatLoop false t cand.platforms
    (stationStep db s cand false t) with ⟨stRf, errR⟩
  rw [hpr] at c2 c3 c4 c5 c6 c7 c8
  dsimp only at c2 c3 c4 c5 c6 c7 c8
  subst c2
  have hout : push_station db a cand false t =
      ⟨.ok ⟨stRf.updated, 0, 0⟩, stRf.db, stRf.muts⟩ := by
    simp only [push_station, hq, hpr]
  have hstats : stRf.db.stations = db.stations.map S0 := c6.trans hb1
  have hsidS : rget (S0 s) "id" = rget s "id" := hb6 s "id" (by decide)
  have hq2 : query_one stRf.db.stations (byKey "acronym" (.str a)) =
      some (S0 s) := by
    rw [hstats, query_one_map_pres _ _ _ (byKey_pres S0 stationFrameKeys
      "acronym" (.str a) (by decide) hb6), hq]
    rfl
  rw [hout]
  refine ⟨⟨S0 s,
    (sortRows "normalized_name" (stRf.db.platforms.filter
      (byKey "station_id" (rget (S0 s) "id")))).map (fun p =>
      ⟨p,
       (sortRows "normalized_name" (stRf.db.instruments.filter
         (byKey "platform_id" (rget p "id")))).map (fun i =>
         ⟨i, sortRows "roi_name" (stRf.db.rois.filter
           (byKey "instrument_id" (rget i "id")))⟩)⟩),
    [("pulled_at", .str t2), ("source", .str "cloudflare_d1")]⟩,
    ?_, ?_, ?_⟩
  · simp only [pull_station, hq2]
  · intro lp hm nm hnm e hqe hstid
    have heP : e ∈ db.platforms := (query_one_mem _ _ _ hqe).1
    have hFe : F2 e = applyPlat t lp e := c14 rfl lp hm nm hnm e hqe
    have hmemP : F2 e ∈ stRf.db.platforms.filter
        (byKey "station_id" (rget (S0 s) "id")) := by
      refine List.mem_filter.mpr ⟨?_, ?_⟩
      · rw [c4]
        exact List.mem_map_of_mem F2 heP
      · unfold byKey
        rw [c9 e "station_id" (by decide), hstid, hsidS]
        exact sqlEq_self _ hsid
    have hmemS : F2 e ∈ sortRows "normalized_name"
        (stRf.db.platforms.filter (byKey "station_id"
          (rget (S0 s) "id"))) :=
      (mem_sortRows _ _ _).mpr hmemP
    refine ⟨_, List.mem_map_of_mem _ hmemS, hFe, ?_⟩
    intro f hf v hv
    show rget (F2 e) f = v
    rw [hFe]
    exact rget_applyPlat t lp e f hf v hv
  · intro lp hm nm hnm e hqe hstid li hli nmi hnmi ei hqi hpid
    have heP : e ∈ db.platforms := (query_one_mem _ _ _ hqe).1
    have heI : ei ∈ db.instruments := (query_one_mem _ _ _ hqi).1
    have hGei : G2 ei = applyInst t li ei :=
      c15 rfl lp hm nm hnm (by rw [hqe]; rfl) li hli nmi hnmi ei hqi
    have hmemP : F2 e ∈ stRf.db.platforms.filter
        (byKey "station_id" (rget (S0 s) "id")) := by
      refine List.mem_filter.mpr ⟨?_, ?_⟩
      · rw [c4]
        exact List.mem_map_of_mem F2 heP
      · unfold byKey
        rw [c9 e "station_id" (by decide), hstid, hsidS]
        exact sqlEq_self _ hsid
    have hmemS : F2 e ∈ sortRows "normalized_name"
        (stRf.db.platforms.filter (byKey "station_id"
          (rget (S0 s) "id"))) :=
      (mem_sortRows _ _ _).mpr hmemP
    have hmemI : G2 ei ∈ stRf.db.instruments.filter
        (byKey "platform_id" (rget (F2 e) "id")) := by
      refine List.mem_filter.mpr ⟨?_, ?_⟩
      · rw [c5]
        exact List.mem_map_of_mem G2 heI
      · unfold byKey
        rw [c10 ei "platform_id" (by decide), hpid, c9 e "id" (by decide)]
        exact sqlEq_self _ (hnnP e heP)
    have hmemSI : G2 ei ∈ sortRows "normalized_name"
        (stRf.db.instruments.filter (byKey "platform_id"
          (rget (F2 e) "id"))) :=
      (mem_sortRows _ _ _).mpr hmemI
    refine ⟨_, List.mem_map_of_mem _ hmemS, _,
      List.mem_map_of_mem _ hmemSI, hGei, ?_⟩
    intro f hf v hv
    show rget (G2 ei) f = v
    rw [hGei]
    exact rget_applyInst t li ei f hf v hv

/-- Well-scoped store for the convergence witness: one station, one
platform under it, one instrument under the platform. -/
def dbC2w : DB :=
  ⟨[[("id", .int 1), ("acronym", .str "S")]],
   [[("id", .int 3), ("normalized_name", .str "P1"), ("station_id", .int 1),
     ("status", .str "Old")]],
   [[("id", .int 4), ("normalized_name", .str "I1"), ("platform_id", .int 3),
     ("status", .str "Old")]],
   [], 9⟩

/-- Candidate flipping the status of both matched entities. -/
def candC2w : StationDoc :=
  ⟨[],
   [⟨[("normalized_name", .str "P1"), ("status", .str "New")],
     [⟨[("normalized_name", .str "I1"), ("status", .str "New")], []⟩]⟩],
   []⟩

/-- C2 witness: the amended convergence statement at a concrete
well-scoped store and candidate. -/
theorem C2_push_pull_convergence_w :
    ∃ doc,
      pull_station (push_station dbC2w "S" candC2w false "T").db "S" "T2" =
        .ok doc ∧
      (∀ lp ∈ candC2w.platforms, ∀ nm,
        rlookup lp.fields "normalized_name" = some nm →
        ∀ e, query_one dbC2w.platforms (byKey "normalized_name" nm) =
          some e →
        rget e "station_id" =
          rget [("id", .int 1), ("acronym", .str "S")] "id" →
          ∃ p ∈ doc.platforms, p.fields = applyPlat "T" lp e ∧
            ∀ f ∈ platformFields, ∀ v, rlookup lp.fields f = some v →
              rget p.fields f = v) ∧
      (∀ lp ∈ candC2w.platforms, ∀ nm,
        rlookup lp.fields "normalized_name" = some nm →
        ∀ e, query_one dbC2w.platforms (byKey "normalized_name" nm) =
          some e →
        rget e "station_id" =
          rget [("id", .int 1), ("acronym", .str "S")] "id" →
        ∀ li ∈ lp.instruments.map InstDoc.fields, ∀ nmi,
          rlookup li "normalized_name" = some nmi →
          ∀ ei, query_one dbC2w.instruments (byKey "normalized_name" nmi) =
            some ei →
          rget ei "platform_id" = rget e "id" →
            ∃ p ∈ doc.platforms, ∃ qd ∈ p.instruments,
              qd.fields = applyInst "T" li ei ∧
              ∀ f ∈ instrumentFields, ∀ v, rlookup li f = some v →
                rget qd.fields f = v) :=
  C2_push_pull_convergence dbC2w "S" candC2w "T" "T2"
    [("id", .int 1), ("acronym", .str "S")] rfl (by decide) (by decide)
    (by decide) (by decide) (by decide) (by decide) (by decide) (by decide)
